import Mathlib

/-!
# jitter.c: a shallow embedding of the measurement loop

The program `src/jitter/jitter.c` times a fixed workload with the cycle
counter, keeps interval ("Transient") and all-time ("absolute") minimum and
maximum of the measured durations and prints one statistics line per display
interval.  This file embeds the functions of that program as Lean functions
and proves properties of them.

Conventions of the embedding:

* `unsigned int` values are naturals below `2^32`, `uint64_t` values are
  naturals below `2^64`; every C operation that can wrap carries its explicit
  `% 2^32` or `% 2^64`.
* `currentExectime` is declared `long`, but it is assigned from a `uint64_t`
  and every use of it (comparison with, assignment to and subtraction of a
  `uint64_t`, `%lu`) converts it back to `unsigned long`; it is therefore
  carried as its 64-bit unsigned value.
* `printf` and `kill` calls are collected as a list of `Output` events.
* `lasttime` has no initialiser in the source, it is `none` until assigned.
* Signals are an input of the loop: the signal numbers for which the handler
  runs during one loop iteration, before that iteration reaches the
  `resetStats` test of line 284.  The handler writes `resetStats` only, and
  the loop body reads it at line 284 only, so the place inside the iteration
  at which the handler runs is immaterial for the variables.
-/

namespace Jitter

/-! ## Definitions -/

/-- Macro `MINVAL` (jitter.c:57): `0xfffffffL`. -/
def MINVAL : Nat := 0xfffffff

/-- Signal number `SIGUSR1` of `<signal.h>` (Linux, x86). -/
def SIGUSR1 : Int := 10

/-- Signal number `SIGUSR2` of `<signal.h>` (Linux, x86). -/
def SIGUSR2 : Int := 12

/-- Local constant `skip` of `main` (jitter.c:172), compared with the
`unsigned int SampleNo` and therefore read as an unsigned value. -/
def skip : Nat := 5

/-- Conversion of a 32-bit unsigned value to `int` (two's complement). -/
def toInt32 (a : Nat) : Int :=
  if a < 2 ^ 31 then (a : Int) else (a : Int) - 2 ^ 32

/-- The `for` loop of `dummyop` (jitter.c:74-78): `i` is the loop index, `a`
the accumulator, `k` the bound; the first argument counts the iterations that
may still run (the loop runs at most `k` times). -/
def dummyopLoop (k : Nat) : Nat → Nat → Nat → Nat
  | 0, _, a => a
  | n + 1, i, a =>
    if i < k then
      dummyopLoop k n ((i + 1) % 2 ^ 32) (((a + (3 * i + k) % 2 ^ 32) % 2 ^ 32) &&& 0x7f0f0000)
    else a

/-- Function `dummyop` (jitter.c:69-81).  The accumulator is `unsigned int`,
the returned value is its conversion to `int`. -/
def dummyop (loops startval : Nat) : Int :=
  toInt32 (dummyopLoop loops loops 0 startval)

/-- Function `TimeStampCounter` (jitter.c:83-94): the argument is the pair
`(eax, edx)` delivered by `rdtsc`; the union puts `low` in the low and `high`
in the high half of `timestamp64`. -/
def TimeStampCounter (r : Nat × Nat) : Nat :=
  r.1 % 2 ^ 32 + 2 ^ 32 * (r.2 % 2 ^ 32)

/-- Function `TimeStampCounterEnd` (jitter.c:96-106): `r1` and `r2` are the
pairs `(eax, edx)` delivered by the first and the second `rdtscp`.  `tscount`
is filled after the first read; the second read only overwrites the locals
`eax` and `edx`. -/
def TimeStampCounterEnd (r1 _r2 : Nat × Nat) : Nat :=
  r1.1 % 2 ^ 32 + 2 ^ 32 * (r1.2 % 2 ^ 32)

/-- Function `clockdiff` (jitter.c:108-118) on `uint64_t`. -/
def clockdiff (starttime endtime : Nat) : Nat :=
  if starttime > endtime then (starttime + 2 ^ 64 - endtime) % 2 ^ 64
  else (endtime + 2 ^ 64 - starttime) % 2 ^ 64

/-- What the program emits: the `printf` calls of the handler and of the
sample loop, and the `kill` call of the anomaly trigger. -/
inductive Output where
  /-- The call `printf("%s",title)` (jitter.c:224, 297). -/
  | title : Output
  /-- The statistics line (jitter.c:269-276); the arguments are the printed
  columns in order.  `interval` is `none` when `lasttime` was never
  assigned. -/
  | statsLine (instMin instMax instJitter lastExec absMin absMax tmp : Nat)
      (interval : Option Nat) (sampleNo : Nat) : Output
  /-- The call `kill(perf_pid, SIGUSR2)` (jitter.c:260). -/
  | kill (pid sig : Int) : Output
  /-- The notice printed by the handler (jitter.c:124). -/
  | resetNotice : Output
  deriving DecidableEq

/-- The values fixed before the sample loop starts: the compile-time switch
`PROCESSOR_TRACE`, the globals set by the options (jitter.c:60-65), the
local `perf_pid` and the value `seedtime` read at jitter.c:226. -/
structure Config where
  PROCESSOR_TRACE : Bool
  loopcount : Nat
  displayUpdate : Nat
  jitter_threshold : Nat
  iterations : Nat
  perf_pid : Int
  seedtime : Nat
  deriving DecidableEq

/-- The variables that live across iterations of the sample loop: the global
`resetStats` (jitter.c:59) and the locals of `main` (jitter.c:163-173).
`startTime`, `endTime` and `currentExectime` are written at the top of every
iteration before they are read and are not part of the carried state. -/
structure Vars where
  resetStats : Int
  tref : Nat
  SampleNo : Nat
  lasttime : Option Nat
  absoluteMin : Nat
  absoluteMax : Nat
  TransientMax : Nat
  TransientMin : Nat
  tmp : Nat
  signaled : Int
  deriving DecidableEq

/-- What one loop iteration reads from outside: the register pairs of the
three counter reads and the signal numbers handled during the iteration. -/
structure Input where
  rdtsc : Nat × Nat
  rdtscp1 : Nat × Nat
  rdtscp2 : Nat × Nat
  signals : List Int
  deriving DecidableEq

/-- Function `signalHandler` (jitter.c:120-127). -/
def signalHandler (signalno : Int) (st : Vars) : Vars × List Output :=
  if signalno = SIGUSR1 then ({ st with resetStats := 1 }, [Output.resetNotice])
  else (st, [])

/-- The handler run once for each signal number of the list, in order. -/
def deliver : List Int → Vars → Vars × List Output
  | [], st => (st, [])
  | s :: rest, st =>
    ((deliver rest (signalHandler s st).1).1,
      (signalHandler s st).2 ++ (deliver rest (signalHandler s st).1).2)

/-- Lines 246-256 of `main`: the four comparisons that adjust the absolute
and the interval minimum and maximum with the duration just measured. -/
def recordSample (currentExectime : Nat) (st : Vars) : Vars :=
  { st with
    absoluteMin := if currentExectime < st.absoluteMin then currentExectime else st.absoluteMin
    absoluteMax := if currentExectime ≥ st.absoluteMax then currentExectime else st.absoluteMax
    TransientMin := if currentExectime < st.TransientMin then currentExectime else st.TransientMin
    TransientMax := if currentExectime ≥ st.TransientMax then currentExectime else st.TransientMax }

/-- The condition of the `if` at jitter.c:259; the subtraction is on
`unsigned long`. -/
def triggerCond (cfg : Config) (currentExectime : Nat) (st : Vars) : Bool :=
  decide (cfg.perf_pid ≠ -1) && decide (st.SampleNo > skip) && decide (st.signaled = 0)
    && decide ((currentExectime + 2 ^ 64 - st.TransientMin) % 2 ^ 64 > cfg.jitter_threshold)

/-- Lines 258-263 of `main`, present only under `PROCESSOR_TRACE`. -/
def perfTrigger (cfg : Config) (currentExectime : Nat) (st : Vars) : Vars × List Output :=
  if cfg.PROCESSOR_TRACE && triggerCond cfg currentExectime st then
    ({ st with signaled := 1 }, [Output.kill cfg.perf_pid SIGUSR2])
  else (st, [])

/-- The statistics line printed at jitter.c:269-276. -/
def statsLineOf (currentExectime endTime : Nat) (st : Vars) : Output :=
  Output.statsLine st.TransientMin st.TransientMax
    ((st.TransientMax + 2 ^ 64 - st.TransientMin) % 2 ^ 64)
    currentExectime st.absoluteMin st.absoluteMax st.tmp
    (st.lasttime.map fun l => (endTime + 2 ^ 64 - l) % 2 ^ 64)
    st.SampleNo

/-- Lines 284-293 of `main`: the reset of the absolute statistics when
`resetStats` is set.  `signaled` exists only under `PROCESSOR_TRACE`. -/
def consumeReset (cfg : Config) (st : Vars) : Vars :=
  if st.resetStats ≠ 0 then
    { st with
      absoluteMax := 0
      absoluteMin := MINVAL
      resetStats := 0
      SampleNo := 1
      signaled := if cfg.PROCESSOR_TRACE then 0 else st.signaled }
  else st

/-- Lines 267-297 of `main`: the body of the `if` at line 265, run at an
interval boundary. -/
def intervalBoundary (cfg : Config) (currentExectime endTime : Nat) (st : Vars) :
    Vars × List Output :=
  let line := if st.SampleNo > 0 then [statsLineOf currentExectime endTime st] else []
  let st1 : Vars :=
    { st with
      tref := 1
      SampleNo := (st.SampleNo + 1) % 2 ^ 32
      lasttime := some endTime
      TransientMax := 0
      TransientMin := MINVAL }
  let st2 := consumeReset cfg st1
  (st2, line ++ (if st2.SampleNo % 40 = 0 then [Output.title] else []))

/-- Lines 265-299 of `main`: the test `tref++ >= displayUpdate` and the
boundary processing it guards. -/
def displayUpdateStep (cfg : Config) (currentExectime endTime : Nat) (st : Vars) :
    Vars × List Output :=
  if st.tref ≥ cfg.displayUpdate then
    intervalBoundary cfg currentExectime endTime { st with tref := (st.tref + 1) % 2 ^ 32 }
  else ({ st with tref := (st.tref + 1) % 2 ^ 32 }, [])

/-- The value `startTime` of an iteration (jitter.c:240). -/
def startTimeOf (inp : Input) : Nat := TimeStampCounter inp.rdtsc

/-- The value `endTime` of an iteration (jitter.c:242). -/
def endTimeOf (inp : Input) : Nat := TimeStampCounterEnd inp.rdtscp1 inp.rdtscp2

/-- The value `currentExectime` of an iteration (jitter.c:244). -/
def duration (inp : Input) : Nat := clockdiff (startTimeOf inp) (endTimeOf inp)

/-- The statement `tmp += dummyop(loopcount, (uint32_t) seedtime)`
(jitter.c:231, 241) on the `unsigned int tmp`. -/
def addDummyop (cfg : Config) (tmp : Nat) : Nat :=
  (((tmp : Int) + dummyop cfg.loopcount (cfg.seedtime % 2 ^ 32)) % 2 ^ 32).toNat

/-- Lines 240-256 of `main` preceded by the handler runs of the iteration:
the state after the four statistics are adjusted. -/
def measured (cfg : Config) (st : Vars) (inp : Input) : Vars :=
  recordSample (duration inp) { (deliver inp.signals st).1 with tmp := addDummyop cfg st.tmp }

/-- Lines 240-263 of `main`: the state when the iteration reaches the test
of line 265. -/
def sampled (cfg : Config) (st : Vars) (inp : Input) : Vars :=
  (perfTrigger cfg (duration inp) (measured cfg st inp)).1

/-- One iteration of the `do ... while` loop of `main` (jitter.c:238-299). -/
def loopBody (cfg : Config) (st : Vars) (inp : Input) : Vars × List Output :=
  ((displayUpdateStep cfg (duration inp) (endTimeOf inp) (sampled cfg st inp)).1,
    (deliver inp.signals st).2 ++ (perfTrigger cfg (duration inp) (measured cfg st inp)).2
      ++ (displayUpdateStep cfg (duration inp) (endTimeOf inp) (sampled cfg st inp)).2)

/-- Consecutive loop iterations, one for each input, without the loop test:
the state reached and everything emitted. -/
def bodies (cfg : Config) : Vars → List Input → Vars × List Output
  | st, [] => (st, [])
  | st, inp :: rest =>
    ((bodies cfg (loopBody cfg st inp).1 rest).1,
      (loopBody cfg st inp).2 ++ (bodies cfg (loopBody cfg st inp).1 rest).2)

/-- The `do ... while(SampleNo <= iterations)` loop of `main`
(jitter.c:237-301) on a supply of inputs: the state reached, everything
emitted, and whether the loop test ended the loop (`false`: the inputs ran
out while the loop was still running). -/
def mainLoop (cfg : Config) : Vars → List Input → Vars × List Output × Bool
  | st, [] => (st, [], false)
  | st, inp :: rest =>
    if (loopBody cfg st inp).1.SampleNo ≤ cfg.iterations then
      ((mainLoop cfg (loopBody cfg st inp).1 rest).1,
        (loopBody cfg st inp).2 ++ (mainLoop cfg (loopBody cfg st inp).1 rest).2.1,
        (mainLoop cfg (loopBody cfg st inp).1 rest).2.2)
    else ((loopBody cfg st inp).1, (loopBody cfg st inp).2, true)

/-- The cache priming loop (jitter.c:229-232): `n` further calls of
`dummyop` accumulated in `tmp`. -/
def primeCache (cfg : Config) : Nat → Nat → Nat
  | 0, tmp => tmp
  | n + 1, tmp => primeCache cfg n (addDummyop cfg tmp)

/-- The variables when the sample loop is entered (jitter.c:59, 163-173,
229-235). -/
def initVars (cfg : Config) : Vars :=
  { resetStats := 0
    tref := 0
    SampleNo := 0
    lasttime := none
    absoluteMin := MINVAL
    absoluteMax := 0
    TransientMax := 0
    TransientMin := MINVAL
    tmp := primeCache cfg 1000 0
    signaled := 0 }

/-- Whether an iteration started in `st` takes the branch of line 284: it
reaches the boundary and finds `resetStats` set. -/
def resetConsumed (cfg : Config) (st : Vars) (inp : Input) : Bool :=
  decide (cfg.displayUpdate ≤ st.tref) && decide ((sampled cfg st inp).resetStats ≠ 0)

/-- No iteration of the run from `st` over the inputs takes the branch of
line 284. -/
def noResetConsumed (cfg : Config) : Vars → List Input → Bool
  | _, [] => true
  | st, inp :: rest =>
    !resetConsumed cfg st inp && noResetConsumed cfg (loopBody cfg st inp).1 rest

/-- The same counter reads with no signal handled. -/
def quiet (inp : Input) : Input := { inp with signals := [] }

/-- Two states that agree on every variable except possibly `resetStats`. -/
def sameButReset (a b : Vars) : Prop :=
  { a with resetStats := 0 } = { b with resetStats := 0 }

/-- The locals of `TimeStampCounterEnd` (jitter.c:98-99): the registers
`eax` and `edx` and the two halves of the union `tscount`. -/
structure TscLocals where
  eax : Nat
  edx : Nat
  low : Nat
  high : Nat
  deriving DecidableEq

/-- The 64-bit timestamp assembled from one counter read `(eax, edx)`. -/
def assemble64 (r : Nat × Nat) : Nat :=
  r.1 % 2 ^ 32 + 2 ^ 32 * (r.2 % 2 ^ 32)

/-- Function `TimeStampCounterEnd` (jitter.c:96-106) statement by statement:
the first `rdtscp` (line 101), the two assignments to `tscount` (lines 102,
103), the second `rdtscp` (line 104) and the `return` of the union (line
105).  The halves of `tscount` hold `low0` and `high0` before they are
assigned. -/
def TimeStampCounterEndSteps (low0 high0 : Nat) (r1 r2 : Nat × Nat) : Nat :=
  let s1 : TscLocals := { eax := r1.1 % 2 ^ 32, edx := r1.2 % 2 ^ 32, low := low0, high := high0 }
  let s2 : TscLocals := { s1 with low := s1.eax }
  let s3 : TscLocals := { s2 with high := s2.edx }
  let s4 : TscLocals := { s3 with eax := r2.1 % 2 ^ 32, edx := r2.2 % 2 ^ 32 }
  s4.low + 2 ^ 32 * s4.high

/-- The iteration the specification gives for `dummyop`: for `i` from 0 to
`loops - 1`, `a := ((a + 3*i + loops) mod 2^32) AND 0x7f0f0000`, starting
from `a = startval`. -/
def dummyopSpec (loops startval : Nat) : Nat :=
  (List.range loops).foldl (fun a i => ((a + 3 * i + loops) % 2 ^ 32) &&& 0x7f0f0000) startval

/-- Whether the `Interval` column of a statistics line was computed from an
assigned `lasttime` (true for every other event). -/
def intervalDefined : Output → Bool
  | Output.statsLine _ _ _ _ _ _ _ iv _ => iv.isSome
  | _ => true

/-- The sample recording of lines 246-256 rewritten with `>` in place of
`>=` in the two maximum updates. -/
def recordSampleStrict (currentExectime : Nat) (st : Vars) : Vars :=
  { st with
    absoluteMin := if currentExectime < st.absoluteMin then currentExectime else st.absoluteMin
    absoluteMax := if currentExectime > st.absoluteMax then currentExectime else st.absoluteMax
    TransientMin := if currentExectime < st.TransientMin then currentExectime else st.TransientMin
    TransientMax := if currentExectime > st.TransientMax then currentExectime else st.TransientMax }

/-- The function `measured` with the strict sample recording. -/
def measuredStrict (cfg : Config) (st : Vars) (inp : Input) : Vars :=
  recordSampleStrict (duration inp)
    { (deliver inp.signals st).1 with tmp := addDummyop cfg st.tmp }

/-- The function `sampled` with the strict sample recording. -/
def sampledStrict (cfg : Config) (st : Vars) (inp : Input) : Vars :=
  (perfTrigger cfg (duration inp) (measuredStrict cfg st inp)).1

/-- The function `loopBody` with the strict sample recording. -/
def loopBodyStrict (cfg : Config) (st : Vars) (inp : Input) : Vars × List Output :=
  ((displayUpdateStep cfg (duration inp) (endTimeOf inp) (sampledStrict cfg st inp)).1,
    (deliver inp.signals st).2 ++ (perfTrigger cfg (duration inp) (measuredStrict cfg st inp)).2
      ++ (displayUpdateStep cfg (duration inp) (endTimeOf inp) (sampledStrict cfg st inp)).2)

/-- The function `mainLoop` with the strict sample recording. -/
def mainLoopStrict (cfg : Config) : Vars → List Input → Vars × List Output × Bool
  | st, [] => (st, [], false)
  | st, inp :: rest =>
    if (loopBodyStrict cfg st inp).1.SampleNo ≤ cfg.iterations then
      ((mainLoopStrict cfg (loopBodyStrict cfg st inp).1 rest).1,
        (loopBodyStrict cfg st inp).2 ++ (mainLoopStrict cfg (loopBodyStrict cfg st inp).1 rest).2.1,
        (mainLoopStrict cfg (loopBodyStrict cfg st inp).1 rest).2.2)
    else ((loopBodyStrict cfg st inp).1, (loopBodyStrict cfg st inp).2, true)

/-- Whether none of the iterations of the run from `st` over the inputs
reaches the boundary: they all lie inside one display interval. -/
def insideInterval (cfg : Config) : Vars → List Input → Bool
  | _, [] => true
  | st, x :: rest =>
    decide (st.tref < cfg.displayUpdate) && insideInterval cfg (loopBody cfg st x).1 rest

/-- For each iteration of the run from `st` over the inputs, whether it
reaches the boundary (the test of line 265 succeeds). -/
def boundaryFlags (cfg : Config) : Vars → List Input → List Bool
  | _, [] => []
  | st, x :: rest =>
    decide (cfg.displayUpdate ≤ st.tref) :: boundaryFlags cfg (loopBody cfg st x).1 rest

/-- Recognises the `kill` calls among the emitted events. -/
def isKill : Output → Bool
  | Output.kill _ _ => true
  | _ => false

/-- Recognises the statistics lines among the emitted events. -/
def isStatsLine : Output → Bool
  | Output.statsLine _ _ _ _ _ _ _ _ _ => true
  | _ => false

/-- Recognises what goes to the standard output: everything but the `kill`
calls. -/
def isPrinted : Output → Bool
  | Output.kill _ _ => false
  | _ => true

/-- Everything `main` emits from the first title (jitter.c:224) on: the
title, then what the sample loop emits from the initial variables. -/
def mainOutput (cfg : Config) (inps : List Input) : List Output :=
  Output.title :: (mainLoop cfg (initVars cfg) inps).2.1

/-- Scans printed events for the `n`-th statistics line still to come
(`n ≥ 1`) and reports whether the event printed directly before it is a
title; `prev` tells whether the event before the scanned list is a title.
The result is `none` when fewer than `n` statistics lines follow. -/
def headerBeforeAux : List Output → Bool → Nat → Option Bool
  | [], _, _ => none
  | o :: rest, prev, n =>
    if isStatsLine o then
      if n = 1 then some prev else headerBeforeAux rest false (n - 1)
    else headerBeforeAux rest (decide (o = Output.title)) n

/-- Whether the `n`-th statistics line of the standard output is directly
preceded by a title line (`none` when there is no `n`-th line). -/
def headerBefore (out : List Output) (n : Nat) : Option Bool :=
  headerBeforeAux (out.filter isPrinted) false n

/-- A configuration with a display interval of one sample. -/
def cadenceCfg : Config :=
  { PROCESSOR_TRACE := true, loopcount := 2, displayUpdate := 1, jitter_threshold := 15000,
    iterations := 200, perf_pid := 4242, seedtime := 7 }

/-- The `Sample No` column of a statistics line (0 for every other event). -/
def sampleNoOf : Output → Nat
  | Output.statsLine _ _ _ _ _ _ _ _ i => i
  | _ => 0

/-- The `Sample No` columns of the statistics lines among the events, in
the order of printing. -/
def lineNumbers (out : List Output) : List Nat :=
  (out.filter isStatsLine).map sampleNoOf

/-- The number of loop iterations `mainLoop` executes on a supply of inputs,
and how many of them reach the boundary. -/
def mainLoopCount (cfg : Config) : Vars → List Input → Nat × Nat
  | _, [] => (0, 0)
  | st, inp :: rest =>
    if (loopBody cfg st inp).1.SampleNo ≤ cfg.iterations then
      ((mainLoopCount cfg (loopBody cfg st inp).1 rest).1 + 1,
        (mainLoopCount cfg (loopBody cfg st inp).1 rest).2
          + (if cfg.displayUpdate ≤ st.tref then 1 else 0))
    else (1, if cfg.displayUpdate ≤ st.tref then 1 else 0)

/-- The number of samples a run without reset takes from `st` until the loop
test fails: the rest of the current display interval, then one interval of
`max displayUpdate 1` samples for each further boundary. -/
def samplesUntilExit (cfg : Config) (st : Vars) : Nat :=
  (cfg.displayUpdate - st.tref + 1)
    + (cfg.iterations - st.SampleNo) * max cfg.displayUpdate 1

/-- An input whose counter reads give the duration `d` (start read 0, end
read `d`) and during which no signal is handled. -/
def inputOfDuration (d : Nat) : Input :=
  { rdtsc := (0, 0), rdtscp1 := (d % 2 ^ 32, d / 2 ^ 32), rdtscp2 := (d % 2 ^ 32, d / 2 ^ 32),
    signals := [] }

/-- A configuration used for the concrete runs below: trigger compiled in,
a display interval of 4 samples. -/
def demoCfg : Config :=
  { PROCESSOR_TRACE := true, loopcount := 2, displayUpdate := 4, jitter_threshold := 15000,
    iterations := 200, perf_pid := 4242, seedtime := 7 }

/-- The variables right after a consumed reset at the first boundary of a
run of `demoCfg` whose first boundary was read at time 0. -/
def demoVars : Vars :=
  { resetStats := 0, tref := 1, SampleNo := 1, lasttime := some 0, absoluteMin := MINVAL,
    absoluteMax := 0, TransientMax := 0, TransientMin := MINVAL, tmp := 0, signaled := 0 }

/-- The variables of a run of `demoCfg` about to reach a boundary
(`tref = displayUpdate`) with a reset pending and absolute statistics 50 and
200. -/
def demoPending : Vars :=
  { resetStats := 1, tref := 4, SampleNo := 1, lasttime := some 0, absoluteMin := 50,
    absoluteMax := 200, TransientMax := 0, TransientMin := MINVAL, tmp := 0, signaled := 0 }

/-- The variables of a run of `demoCfg` past the settle period, at the start
of a display interval, with the trigger not yet used. -/
def demoArmed : Vars :=
  { resetStats := 0, tref := 1, SampleNo := 6, lasttime := some 0, absoluteMin := 50,
    absoluteMax := 200, TransientMax := 0, TransientMin := MINVAL, tmp := 0, signaled := 0 }

/-- A configuration that stops after three statistics lines, with a
display interval of two samples. -/
def shortCfg : Config :=
  { PROCESSOR_TRACE := true, loopcount := 2, displayUpdate := 2, jitter_threshold := 15000,
    iterations := 3, perf_pid := 4242, seedtime := 7 }

/-! ## Theorems -/

/-! ### The sections of the loop body, field by field -/

theorem signalHandler_fst (s : Int) (st : Vars) :
    (signalHandler s st).1
      = { st with resetStats := if s = SIGUSR1 then 1 else st.resetStats } := by
  unfold signalHandler
  split_ifs <;> rfl

theorem deliver_fst (l : List Int) (st : Vars) :
    (deliver l st).1 = { st with resetStats := if SIGUSR1 ∈ l then 1 else st.resetStats } := by
  induction l generalizing st with
  | nil => simp [deliver]
  | cons s rest ih =>
    simp only [deliver, ih, signalHandler_fst, List.mem_cons]
    by_cases h1 : s = SIGUSR1
    · subst h1
      simp
    · have h2 : ¬ SIGUSR1 = s := fun h => h1 h.symm
      simp [h1, h2]

theorem perfTrigger_fst (cfg : Config) (d : Nat) (st : Vars) :
    (perfTrigger cfg d st).1
      = { st with signaled :=
            if (cfg.PROCESSOR_TRACE && triggerCond cfg d st) = true then 1 else st.signaled } := by
  unfold perfTrigger
  split_ifs <;> rfl

theorem recordSample_TransientMin (d : Nat) (st : Vars) :
    (recordSample d st).TransientMin = min st.TransientMin d := by
  simp only [recordSample]
  split_ifs with h
  · exact (min_eq_right (le_of_lt h)).symm
  · exact (min_eq_left (not_lt.mp h)).symm

theorem recordSample_TransientMax (d : Nat) (st : Vars) :
    (recordSample d st).TransientMax = max st.TransientMax d := by
  simp only [recordSample]
  split_ifs with h
  · exact (max_eq_right h).symm
  · exact (max_eq_left (le_of_lt (not_le.mp h))).symm

theorem recordSample_absoluteMin (d : Nat) (st : Vars) :
    (recordSample d st).absoluteMin = min st.absoluteMin d := by
  simp only [recordSample]
  split_ifs with h
  · exact (min_eq_right (le_of_lt h)).symm
  · exact (min_eq_left (not_lt.mp h)).symm

theorem recordSample_absoluteMax (d : Nat) (st : Vars) :
    (recordSample d st).absoluteMax = max st.absoluteMax d := by
  simp only [recordSample]
  split_ifs with h
  · exact (max_eq_right h).symm
  · exact (max_eq_left (le_of_lt (not_le.mp h))).symm

theorem sampled_TransientMin (cfg : Config) (st : Vars) (inp : Input) :
    (sampled cfg st inp).TransientMin = min st.TransientMin (duration inp) := by
  simp [sampled, measured, perfTrigger_fst, recordSample_TransientMin, deliver_fst]

theorem sampled_TransientMax (cfg : Config) (st : Vars) (inp : Input) :
    (sampled cfg st inp).TransientMax = max st.TransientMax (duration inp) := by
  simp [sampled, measured, perfTrigger_fst, recordSample_TransientMax, deliver_fst]

theorem sampled_absoluteMin (cfg : Config) (st : Vars) (inp : Input) :
    (sampled cfg st inp).absoluteMin = min st.absoluteMin (duration inp) := by
  simp [sampled, measured, perfTrigger_fst, recordSample_absoluteMin, deliver_fst]

theorem sampled_absoluteMax (cfg : Config) (st : Vars) (inp : Input) :
    (sampled cfg st inp).absoluteMax = max st.absoluteMax (duration inp) := by
  simp [sampled, measured, perfTrigger_fst, recordSample_absoluteMax, deliver_fst]

theorem sampled_tref (cfg : Config) (st : Vars) (inp : Input) :
    (sampled cfg st inp).tref = st.tref := by
  simp [sampled, measured, perfTrigger_fst, recordSample, deliver_fst]

theorem sampled_SampleNo (cfg : Config) (st : Vars) (inp : Input) :
    (sampled cfg st inp).SampleNo = st.SampleNo := by
  simp [sampled, measured, perfTrigger_fst, recordSample, deliver_fst]

theorem sampled_lasttime (cfg : Config) (st : Vars) (inp : Input) :
    (sampled cfg st inp).lasttime = st.lasttime := by
  simp [sampled, measured, perfTrigger_fst, recordSample, deliver_fst]

theorem sampled_tmp (cfg : Config) (st : Vars) (inp : Input) :
    (sampled cfg st inp).tmp = addDummyop cfg st.tmp := by
  simp [sampled, measured, perfTrigger_fst, recordSample, deliver_fst]

theorem sampled_resetStats (cfg : Config) (st : Vars) (inp : Input) :
    (sampled cfg st inp).resetStats = if SIGUSR1 ∈ inp.signals then 1 else st.resetStats := by
  simp [sampled, measured, perfTrigger_fst, recordSample, deliver_fst]

/-- An iteration that does not reach the boundary only advances `tref`. -/
theorem loopBody_fst_of_lt (cfg : Config) (st : Vars) (inp : Input)
    (h : st.tref < cfg.displayUpdate) :
    (loopBody cfg st inp).1 = { sampled cfg st inp with tref := (st.tref + 1) % 2 ^ 32 } := by
  have h' : ¬ st.tref ≥ cfg.displayUpdate := not_le.mpr h
  simp only [loopBody, displayUpdateStep, sampled_tref, if_neg h']

/-- An iteration that reaches the boundary runs the boundary processing. -/
theorem loopBody_fst_of_ge (cfg : Config) (st : Vars) (inp : Input)
    (h : cfg.displayUpdate ≤ st.tref) :
    (loopBody cfg st inp).1
      = (intervalBoundary cfg (duration inp) (endTimeOf inp)
          { sampled cfg st inp with tref := (st.tref + 1) % 2 ^ 32 }).1 := by
  have h' : st.tref ≥ cfg.displayUpdate := h
  simp only [loopBody, displayUpdateStep, sampled_tref, if_pos h']

/-- The statistics after iterations that stay inside one display interval:
the running minimum and maximum of the durations; `SampleNo` and `lasttime`
are not written. -/
theorem bodies_inside (cfg : Config) (pre : List Input) (st : Vars)
    (h : st.tref + pre.length ≤ cfg.displayUpdate) :
    (bodies cfg st pre).1.TransientMin = (pre.map duration).foldl min st.TransientMin
      ∧ (bodies cfg st pre).1.TransientMax = (pre.map duration).foldl max st.TransientMax
      ∧ (bodies cfg st pre).1.absoluteMin = (pre.map duration).foldl min st.absoluteMin
      ∧ (bodies cfg st pre).1.absoluteMax = (pre.map duration).foldl max st.absoluteMax
      ∧ (bodies cfg st pre).1.SampleNo = st.SampleNo
      ∧ (bodies cfg st pre).1.lasttime = st.lasttime
      ∧ (bodies cfg st pre).1.tref ≤ st.tref + pre.length
      ∧ (cfg.displayUpdate < 2 ^ 32 → (bodies cfg st pre).1.tref = st.tref + pre.length) := by
  induction pre generalizing st with
  | nil => simp [bodies]
  | cons inp rest ih =>
    simp only [List.length_cons] at h
    have hlt : st.tref < cfg.displayUpdate := by omega
    have hb := loopBody_fst_of_lt cfg st inp hlt
    have htref : (loopBody cfg st inp).1.tref = (st.tref + 1) % 2 ^ 32 := by rw [hb]
    have htref' : (loopBody cfg st inp).1.tref ≤ st.tref + 1 := by
      rw [htref]
      exact Nat.mod_le _ _
    have ih' := ih (loopBody cfg st inp).1 (by omega)
    obtain ⟨i1, i2, i3, i4, i5, i6, i7, i8⟩ := ih'
    simp only [bodies, List.map_cons, List.foldl_cons, List.length_cons]
    refine ⟨?_, ?_, ?_, ?_, ?_, ?_, by omega, ?_⟩
    · rw [i1, hb]
      simp [sampled_TransientMin]
    · rw [i2, hb]
      simp [sampled_TransientMax]
    · rw [i3, hb]
      simp [sampled_absoluteMin]
    · rw [i4, hb]
      simp [sampled_absoluteMax]
    · rw [i5, hb]
      simp [sampled_SampleNo]
    · rw [i6, hb]
      simp [sampled_lasttime]
    · intro hw
      rw [i8 hw, htref, Nat.mod_eq_of_lt (by omega)]
      omega

theorem foldl_min_le (l : List Nat) (a : Nat) :
    l.foldl min a ≤ a ∧ ∀ x ∈ l, l.foldl min a ≤ x := by
  induction l generalizing a with
  | nil => simp
  | cons y rest ih =>
    simp only [List.foldl_cons, List.mem_cons]
    have h := ih (min a y)
    refine ⟨le_trans h.1 (min_le_left _ _), ?_⟩
    rintro x (rfl | hx)
    · exact le_trans h.1 (min_le_right _ _)
    · exact h.2 x hx

theorem le_foldl_max (l : List Nat) (a : Nat) :
    a ≤ l.foldl max a ∧ ∀ x ∈ l, x ≤ l.foldl max a := by
  induction l generalizing a with
  | nil => simp
  | cons y rest ih =>
    simp only [List.foldl_cons, List.mem_cons]
    have h := ih (max a y)
    refine ⟨le_trans (le_max_left _ _) h.1, ?_⟩
    rintro x (rfl | hx)
    · exact le_trans (le_max_right _ _) h.1
    · exact h.2 x hx

theorem foldl_min_mem (l : List Nat) (a : Nat) :
    l.foldl min a = a ∨ l.foldl min a ∈ l := by
  induction l generalizing a with
  | nil => simp
  | cons y rest ih =>
    simp only [List.foldl_cons, List.mem_cons]
    rcases ih (min a y) with h | h
    · rcases min_choice a y with h2 | h2
      · left; rw [h, h2]
      · right; left; rw [h, h2]
    · right; right; exact h

theorem foldl_max_mem (l : List Nat) (a : Nat) :
    l.foldl max a = a ∨ l.foldl max a ∈ l := by
  induction l generalizing a with
  | nil => simp
  | cons y rest ih =>
    simp only [List.foldl_cons, List.mem_cons]
    rcases ih (max a y) with h | h
    · rcases max_choice a y with h2 | h2
      · left; rw [h, h2]
      · right; left; rw [h, h2]
    · right; right; exact h

/-! ### What the sections emit -/

theorem deliver_snd_filter (l : List Int) (st : Vars) :
    (deliver l st).2.filter isStatsLine = [] := by
  induction l generalizing st with
  | nil => simp [deliver]
  | cons s rest ih =>
    simp only [deliver, List.filter_append, ih, List.append_nil]
    unfold signalHandler
    split_ifs <;> simp [isStatsLine]

theorem perfTrigger_snd_filter (cfg : Config) (d : Nat) (st : Vars) :
    (perfTrigger cfg d st).2.filter isStatsLine = [] := by
  unfold perfTrigger
  split_ifs <;> simp [isStatsLine]

theorem intervalBoundary_snd_filter (cfg : Config) (d e : Nat) (st : Vars) :
    (intervalBoundary cfg d e st).2.filter isStatsLine
      = if 0 < st.SampleNo then [statsLineOf d e st] else [] := by
  simp only [intervalBoundary, List.filter_append]
  have h1 : ∀ b : Prop, ∀ [Decidable b],
      (if b then [Output.title] else []).filter isStatsLine = [] := by
    intro b _
    split_ifs <;> simp [isStatsLine]
  rw [h1, List.append_nil]
  split_ifs with h
  · simp [statsLineOf, isStatsLine]
  · simp

/-- An iteration that does not reach the boundary prints no statistics
line. -/
theorem loopBody_snd_of_lt (cfg : Config) (st : Vars) (inp : Input)
    (h : st.tref < cfg.displayUpdate) :
    (loopBody cfg st inp).2.filter isStatsLine = [] := by
  have h' : ¬ st.tref ≥ cfg.displayUpdate := not_le.mpr h
  simp only [loopBody, displayUpdateStep, sampled_tref, if_neg h', List.filter_append,
    deliver_snd_filter, perfTrigger_snd_filter, List.append_nil, List.filter_nil]

/-- An iteration that reaches the boundary prints the statistics line of the
state it reached the boundary with, unless `SampleNo` is 0. -/
theorem loopBody_snd_of_ge (cfg : Config) (st : Vars) (inp : Input)
    (h : cfg.displayUpdate ≤ st.tref) :
    (loopBody cfg st inp).2.filter isStatsLine
      = if 0 < st.SampleNo then
          [statsLineOf (duration inp) (endTimeOf inp)
            { sampled cfg st inp with tref := (st.tref + 1) % 2 ^ 32 }]
        else [] := by
  have h' : st.tref ≥ cfg.displayUpdate := h
  simp only [loopBody, displayUpdateStep, sampled_tref, if_pos h', List.filter_append,
    deliver_snd_filter, perfTrigger_snd_filter, List.nil_append, intervalBoundary_snd_filter,
    sampled_SampleNo]

theorem bodies_append (cfg : Config) (st : Vars) (xs ys : List Input) :
    bodies cfg st (xs ++ ys)
      = ((bodies cfg (bodies cfg st xs).1 ys).1,
          (bodies cfg st xs).2 ++ (bodies cfg (bodies cfg st xs).1 ys).2) := by
  induction xs generalizing st with
  | nil => simp [bodies]
  | cons x rest ih => simp [bodies, ih, List.append_assoc]

theorem bodies_singleton (cfg : Config) (st : Vars) (x : Input) :
    bodies cfg st [x] = loopBody cfg st x := by
  simp [bodies]

/-- Iterations inside one display interval print no statistics line. -/
theorem bodies_inside_snd (cfg : Config) (pre : List Input) (st : Vars)
    (h : st.tref + pre.length ≤ cfg.displayUpdate) :
    (bodies cfg st pre).2.filter isStatsLine = [] := by
  induction pre generalizing st with
  | nil => simp [bodies]
  | cons inp rest ih =>
    simp only [List.length_cons] at h
    have hlt : st.tref < cfg.displayUpdate := by omega
    have htref : (loopBody cfg st inp).1.tref ≤ st.tref + 1 := by
      rw [loopBody_fst_of_lt cfg st inp hlt]
      exact Nat.mod_le _ _
    simp only [bodies, List.filter_append, loopBody_snd_of_lt cfg st inp hlt,
      ih (loopBody cfg st inp).1 (by omega), List.append_nil]

/-! ### The claims -/

/-- C1: when the iterations `pre` and then `last` are the samples of one
display interval (none of `pre` reaches the boundary), then at the boundary,
where the iteration of `last` reaches the test of line 265, every duration
recorded in the interval lies between `TransientMin` and `TransientMax`.
This holds from the reset values `MINVAL` and `0` and from any other values
the interval statistics start with. -/
theorem interval_bounds (cfg : Config) (st : Vars) (pre : List Input) (last : Input)
    (hint : st.tref + pre.length ≤ cfg.displayUpdate) :
    ∀ i ∈ pre ++ [last],
      (sampled cfg (bodies cfg st pre).1 last).TransientMin ≤ duration i
        ∧ duration i ≤ (sampled cfg (bodies cfg st pre).1 last).TransientMax := by
  have hb := bodies_inside cfg pre st hint
  intro i hi
  rw [sampled_TransientMin, sampled_TransientMax, hb.1, hb.2.1]
  rcases List.mem_append.mp hi with h | h
  · have hd : duration i ∈ pre.map duration := List.mem_map_of_mem _ h
    exact ⟨le_trans (min_le_left _ _) ((foldl_min_le _ _).2 _ hd),
      le_trans ((le_foldl_max _ _).2 _ hd) (le_max_left _ _)⟩
  · rw [List.mem_singleton.mp h]
    exact ⟨min_le_right _ _, le_max_right _ _⟩

/-- Witness of `interval_bounds`: the durations 100, 50, 200, 75 recorded in
one interval that starts from the reset values. -/
theorem interval_bounds_witness :
    (demoVars.TransientMin = MINVAL ∧ demoVars.TransientMax = 0)
      ∧ demoVars.tref + [inputOfDuration 100, inputOfDuration 50, inputOfDuration 200].length
          ≤ demoCfg.displayUpdate
      ∧ ∀ i ∈ [inputOfDuration 100, inputOfDuration 50, inputOfDuration 200]
            ++ [inputOfDuration 75],
          (sampled demoCfg (bodies demoCfg demoVars
              [inputOfDuration 100, inputOfDuration 50, inputOfDuration 200]).1
              (inputOfDuration 75)).TransientMin ≤ duration i
            ∧ duration i ≤ (sampled demoCfg (bodies demoCfg demoVars
              [inputOfDuration 100, inputOfDuration 50, inputOfDuration 200]).1
              (inputOfDuration 75)).TransientMax :=
  ⟨⟨rfl, rfl⟩, by decide,
    interval_bounds demoCfg demoVars [inputOfDuration 100, inputOfDuration 50, inputOfDuration 200]
      (inputOfDuration 75) (by decide)⟩

/-- C2: durations below `MINVAL` recorded into one display interval (the
iterations `pre`, then `last` at the boundary) from freshly initialised
interval and absolute statistics.  With `m` the minimum and `M` the maximum of
the durations, the absolute statistics at the boundary are `m` and `M`, and the
run prints exactly one statistics line, with `Inst_Min = m`, `Inst_Max = M`,
`Inst_jitter = M - m`, `Abs_min = m` and `Abs_max = M` (no line when
`SampleNo` is still 0, as at the first boundary of the program). -/
theorem interval_line (cfg : Config) (st : Vars) (pre : List Input) (last : Input)
    (hTmin : st.TransientMin = MINVAL) (hTmax : st.TransientMax = 0)
    (hAmin : st.absoluteMin = MINVAL) (hAmax : st.absoluteMax = 0)
    (hint : st.tref + pre.length = cfg.displayUpdate) (hD : cfg.displayUpdate < 2 ^ 32)
    (hd : ∀ i ∈ pre ++ [last], duration i < MINVAL) :
    ∃ m M : Nat,
      (m ∈ (pre ++ [last]).map duration ∧ ∀ d ∈ (pre ++ [last]).map duration, m ≤ d)
        ∧ (M ∈ (pre ++ [last]).map duration ∧ ∀ d ∈ (pre ++ [last]).map duration, d ≤ M)
        ∧ (sampled cfg (bodies cfg st pre).1 last).absoluteMin = m
        ∧ (sampled cfg (bodies cfg st pre).1 last).absoluteMax = M
        ∧ (bodies cfg st (pre ++ [last])).2.filter isStatsLine
            = if 0 < st.SampleNo then
                [Output.statsLine m M (M - m) (duration last) m M
                  (sampled cfg (bodies cfg st pre).1 last).tmp
                  (st.lasttime.map fun l => (endTimeOf last + 2 ^ 64 - l) % 2 ^ 64)
                  st.SampleNo]
              else [] := by
  obtain ⟨i1, i2, i3, i4, i5, i6, -, i8⟩ := bodies_inside cfg pre st (le_of_eq hint)
  have hds : (pre ++ [last]).map duration = pre.map duration ++ [duration last] := by simp
  have hmin : ((pre ++ [last]).map duration).foldl min MINVAL
      = min ((pre.map duration).foldl min MINVAL) (duration last) := by
    rw [hds, List.foldl_append]
    rfl
  have hmax : ((pre ++ [last]).map duration).foldl max 0
      = max ((pre.map duration).foldl max 0) (duration last) := by
    rw [hds, List.foldl_append]
    rfl
  have hlast : duration last ∈ (pre ++ [last]).map duration := by simp
  have hlt : ∀ d ∈ (pre ++ [last]).map duration, d < MINVAL := by
    intro d hdm
    obtain ⟨i, hi, rfl⟩ := List.mem_map.mp hdm
    exact hd i hi
  have hmle := foldl_min_le ((pre ++ [last]).map duration) MINVAL
  have hlem := le_foldl_max ((pre ++ [last]).map duration) 0
  have hmmem : ((pre ++ [last]).map duration).foldl min MINVAL ∈ (pre ++ [last]).map duration := by
    rcases foldl_min_mem ((pre ++ [last]).map duration) MINVAL with h | h
    · exact absurd (h ▸ hmle.2 _ hlast) (not_le.mpr (hlt _ hlast))
    · exact h
  have hMmem : ((pre ++ [last]).map duration).foldl max 0 ∈ (pre ++ [last]).map duration := by
    rcases foldl_max_mem ((pre ++ [last]).map duration) 0 with h | h
    · have h0 : duration last = 0 := Nat.le_zero.mp (h ▸ hlem.2 _ hlast)
      rw [h, ← h0]
      exact hlast
    · exact h
  have hmM : ((pre ++ [last]).map duration).foldl min MINVAL
      ≤ ((pre ++ [last]).map duration).foldl max 0 :=
    le_trans (hmle.2 _ hlast) (hlem.2 _ hlast)
  have hMlt : ((pre ++ [last]).map duration).foldl max 0 < MINVAL := hlt _ hMmem
  have hMINVAL : MINVAL < 2 ^ 64 := by norm_num [MINVAL]
  have hbnd : cfg.displayUpdate ≤ (bodies cfg st pre).1.tref := by
    rw [i8 hD, hint]
  refine ⟨((pre ++ [last]).map duration).foldl min MINVAL,
    ((pre ++ [last]).map duration).foldl max 0, ⟨hmmem, hmle.2⟩, ⟨hMmem, hlem.2⟩, ?_, ?_, ?_⟩
  · rw [sampled_absoluteMin, i3, hAmin, hmin]
  · rw [sampled_absoluteMax, i4, hAmax, hmax]
  · rw [bodies_append, bodies_singleton]
    simp only [List.filter_append, bodies_inside_snd cfg pre st (le_of_eq hint), List.nil_append]
    rw [loopBody_snd_of_ge cfg _ last hbnd, i5]
    split_ifs with hS
    · have e1 : (sampled cfg (bodies cfg st pre).1 last).TransientMin
          = ((pre ++ [last]).map duration).foldl min MINVAL := by
        rw [sampled_TransientMin, i1, hTmin, hmin]
      have e2 : (sampled cfg (bodies cfg st pre).1 last).TransientMax
          = ((pre ++ [last]).map duration).foldl max 0 := by
        rw [sampled_TransientMax, i2, hTmax, hmax]
      have e3 : (sampled cfg (bodies cfg st pre).1 last).absoluteMin
          = ((pre ++ [last]).map duration).foldl min MINVAL := by
        rw [sampled_absoluteMin, i3, hAmin, hmin]
      have e4 : (sampled cfg (bodies cfg st pre).1 last).absoluteMax
          = ((pre ++ [last]).map duration).foldl max 0 := by
        rw [sampled_absoluteMax, i4, hAmax, hmax]
      have e5 : (((pre ++ [last]).map duration).foldl max 0 + 2 ^ 64
            - ((pre ++ [last]).map duration).foldl min MINVAL) % 2 ^ 64
          = ((pre ++ [last]).map duration).foldl max 0
            - ((pre ++ [last]).map duration).foldl min MINVAL := by
        omega
      simp only [statsLineOf, e1, e2, e3, e4, e5, sampled_SampleNo, sampled_lasttime, i5, i6]
    · rfl

/-- Witness of `interval_line`: the durations 100, 50, 200, 75 recorded in
one interval of `demoCfg`, from fresh statistics. -/
theorem interval_line_witness :
    (demoVars.TransientMin = MINVAL ∧ demoVars.TransientMax = 0
        ∧ demoVars.absoluteMin = MINVAL ∧ demoVars.absoluteMax = 0
        ∧ demoVars.tref + [inputOfDuration 100, inputOfDuration 50, inputOfDuration 200].length
            = demoCfg.displayUpdate
        ∧ demoCfg.displayUpdate < 2 ^ 32
        ∧ ∀ i ∈ [inputOfDuration 100, inputOfDuration 50, inputOfDuration 200]
            ++ [inputOfDuration 75], duration i < MINVAL)
      ∧ ∃ m M : Nat,
        (m ∈ ([inputOfDuration 100, inputOfDuration 50, inputOfDuration 200]
                ++ [inputOfDuration 75]).map duration
            ∧ ∀ d ∈ ([inputOfDuration 100, inputOfDuration 50, inputOfDuration 200]
                ++ [inputOfDuration 75]).map duration, m ≤ d)
          ∧ (M ∈ ([inputOfDuration 100, inputOfDuration 50, inputOfDuration 200]
                ++ [inputOfDuration 75]).map duration
            ∧ ∀ d ∈ ([inputOfDuration 100, inputOfDuration 50, inputOfDuration 200]
                ++ [inputOfDuration 75]).map duration, d ≤ M)
          ∧ (sampled demoCfg (bodies demoCfg demoVars
              [inputOfDuration 100, inputOfDuration 50, inputOfDuration 200]).1
              (inputOfDuration 75)).absoluteMin = m
          ∧ (sampled demoCfg (bodies demoCfg demoVars
              [inputOfDuration 100, inputOfDuration 50, inputOfDuration 200]).1
              (inputOfDuration 75)).absoluteMax = M
          ∧ (bodies demoCfg demoVars ([inputOfDuration 100, inputOfDuration 50, inputOfDuration 200]
                ++ [inputOfDuration 75])).2.filter isStatsLine
              = if 0 < demoVars.SampleNo then
                  [Output.statsLine m M (M - m) (duration (inputOfDuration 75)) m M
                    (sampled demoCfg (bodies demoCfg demoVars
                      [inputOfDuration 100, inputOfDuration 50, inputOfDuration 200]).1
                      (inputOfDuration 75)).tmp
                    (demoVars.lasttime.map fun l =>
                      (endTimeOf (inputOfDuration 75) + 2 ^ 64 - l) % 2 ^ 64)
                    demoVars.SampleNo]
                else [] :=
  ⟨⟨rfl, rfl, rfl, rfl, by decide, by decide, by decide⟩,
    interval_line demoCfg demoVars [inputOfDuration 100, inputOfDuration 50, inputOfDuration 200]
      (inputOfDuration 75) rfl rfl rfl rfl (by decide) (by decide) (by decide)⟩

/-- The scenario of C2 evaluated: the durations 100, 50, 200, 75 in one
interval give the line 50, 200, 150 with absolute columns 50 and 200. -/
theorem interval_line_example :
    (bodies demoCfg demoVars [inputOfDuration 100, inputOfDuration 50, inputOfDuration 200,
        inputOfDuration 75]).2
      = [Output.statsLine 50 200 150 75 50 200 0 (some 75) 1] := by
  decide

/-- From reset absolute statistics a first sample of at most `MINVAL` cycles
sets both absolute bounds to its duration. -/
theorem first_sample_sets_both (cfg : Config) (st : Vars) (inp : Input)
    (hmin : st.absoluteMin = MINVAL) (hmax : st.absoluteMax = 0)
    (hd : duration inp ≤ MINVAL) :
    (sampled cfg st inp).absoluteMin = duration inp
      ∧ (sampled cfg st inp).absoluteMax = duration inp := by
  rw [sampled_absoluteMin, sampled_absoluteMax, hmin, hmax]
  exact ⟨min_eq_right hd, max_eq_right (Nat.zero_le _)⟩

/-- C3 at a failing input: a boundary consumes a pending reset, and the next
sample lasts `0x10000000 = MINVAL + 1` cycles.  The reset leaves
`absoluteMin = MINVAL` and `absoluteMax = 0`; the sample then sets
`absoluteMax` to its duration but leaves `absoluteMin` at `MINVAL`, a value
that was never measured.  The same happens with the first sample of the
program. -/
theorem first_sample_above_MINVAL :
    (loopBody demoCfg demoPending (inputOfDuration 75)).1.absoluteMin = MINVAL
      ∧ (loopBody demoCfg demoPending (inputOfDuration 75)).1.absoluteMax = 0
      ∧ duration (inputOfDuration 0x10000000) = 268435456
      ∧ (loopBody demoCfg
          (loopBody demoCfg demoPending (inputOfDuration 75)).1
          (inputOfDuration 0x10000000)).1.absoluteMin = 268435455
      ∧ (loopBody demoCfg
          (loopBody demoCfg demoPending (inputOfDuration 75)).1
          (inputOfDuration 0x10000000)).1.absoluteMax = 268435456
      ∧ (loopBody demoCfg (initVars demoCfg) (inputOfDuration 0x10000000)).1.absoluteMin
          = 268435455
      ∧ (loopBody demoCfg (initVars demoCfg) (inputOfDuration 0x10000000)).1.absoluteMax
          = 268435456 := by
  decide

theorem consumeReset_of_zero (cfg : Config) (st : Vars) (h : st.resetStats = 0) :
    consumeReset cfg st = st := by
  simp [consumeReset, h]

theorem intervalBoundary_fst_of_zero (cfg : Config) (d e : Nat) (st : Vars)
    (h : st.resetStats = 0) :
    (intervalBoundary cfg d e st).1
      = { st with
          tref := 1
          SampleNo := (st.SampleNo + 1) % 2 ^ 32
          lasttime := some e
          TransientMax := 0
          TransientMin := MINVAL } := by
  simp [intervalBoundary, consumeReset, h]

theorem intervalBoundary_fst_of_ne (cfg : Config) (d e : Nat) (st : Vars)
    (h : st.resetStats ≠ 0) :
    (intervalBoundary cfg d e st).1
      = { st with
          tref := 1
          lasttime := some e
          TransientMax := 0
          TransientMin := MINVAL
          absoluteMax := 0
          absoluteMin := MINVAL
          resetStats := 0
          SampleNo := 1
          signaled := if cfg.PROCESSOR_TRACE then 0 else st.signaled } := by
  simp [intervalBoundary, consumeReset, h]

/-- One iteration that does not consume a reset never raises `absoluteMin`
and never lowers `absoluteMax`. -/
theorem loopBody_absolute_of_not_consumed (cfg : Config) (st : Vars) (inp : Input)
    (h : resetConsumed cfg st inp = false) :
    (loopBody cfg st inp).1.absoluteMin ≤ st.absoluteMin
      ∧ st.absoluteMax ≤ (loopBody cfg st inp).1.absoluteMax := by
  by_cases hb : cfg.displayUpdate ≤ st.tref
  · have hz : (sampled cfg st inp).resetStats = 0 := by
      simpa [resetConsumed, hb] using h
    have hz' : ({ sampled cfg st inp with tref := (st.tref + 1) % 2 ^ 32 } : Vars).resetStats
        = 0 := hz
    rw [loopBody_fst_of_ge cfg st inp hb, intervalBoundary_fst_of_zero cfg _ _ _ hz']
    simp [sampled_absoluteMin, sampled_absoluteMax]
  · rw [loopBody_fst_of_lt cfg st inp (not_le.mp hb)]
    simp [sampled_absoluteMin, sampled_absoluteMax]

theorem bodies_absolute_of_not_consumed (cfg : Config) (ys : List Input) (st : Vars)
    (h : noResetConsumed cfg st ys = true) :
    (bodies cfg st ys).1.absoluteMin ≤ st.absoluteMin
      ∧ st.absoluteMax ≤ (bodies cfg st ys).1.absoluteMax := by
  induction ys generalizing st with
  | nil => simp [bodies]
  | cons inp rest ih =>
    simp only [noResetConsumed, Bool.and_eq_true, Bool.not_eq_true'] at h
    have h1 := loopBody_absolute_of_not_consumed cfg st inp h.1
    have h2 := ih (loopBody cfg st inp).1 h.2
    simp only [bodies]
    exact ⟨le_trans h2.1 h1.1, le_trans h1.2 h2.2⟩

/-- C4: recording a sample never raises `absoluteMin` and never lowers
`absoluteMax`; a boundary that finds `resetStats = 0` changes neither; and
between any two points of a run (after the iterations `xs`, and after the
further iterations `ys`) with no reset consumed in between, `absoluteMin` has
not grown and `absoluteMax` has not shrunk. -/
theorem absolute_monotone (cfg : Config) (st : Vars) (xs ys : List Input)
    (h : noResetConsumed cfg (bodies cfg st xs).1 ys = true) :
    ((bodies cfg st (xs ++ ys)).1.absoluteMin ≤ (bodies cfg st xs).1.absoluteMin
        ∧ (bodies cfg st xs).1.absoluteMax ≤ (bodies cfg st (xs ++ ys)).1.absoluteMax)
      ∧ (∀ (d : Nat) (s : Vars),
          (recordSample d s).absoluteMin ≤ s.absoluteMin
            ∧ s.absoluteMax ≤ (recordSample d s).absoluteMax)
      ∧ (∀ (d e : Nat) (s : Vars), s.resetStats = 0 →
          (intervalBoundary cfg d e s).1.absoluteMin = s.absoluteMin
            ∧ (intervalBoundary cfg d e s).1.absoluteMax = s.absoluteMax) := by
  refine ⟨?_, ?_, ?_⟩
  · rw [bodies_append]
    exact bodies_absolute_of_not_consumed cfg ys _ h
  · intro d s
    rw [recordSample_absoluteMin, recordSample_absoluteMax]
    exact ⟨min_le_left _ _, le_max_left _ _⟩
  · intro d e s hs
    rw [intervalBoundary_fst_of_zero cfg d e s hs]
    exact ⟨rfl, rfl⟩

/-- Witness of `absolute_monotone`: two display intervals of `demoCfg`
without a signal, compared with the state after the first two samples. -/
theorem absolute_monotone_witness :
    noResetConsumed demoCfg
        (bodies demoCfg demoVars [inputOfDuration 100, inputOfDuration 50]).1
        [inputOfDuration 200, inputOfDuration 75, inputOfDuration 30, inputOfDuration 300] = true
      ∧ ((bodies demoCfg demoVars ([inputOfDuration 100, inputOfDuration 50]
            ++ [inputOfDuration 200, inputOfDuration 75, inputOfDuration 30,
              inputOfDuration 300])).1.absoluteMin
          ≤ (bodies demoCfg demoVars [inputOfDuration 100, inputOfDuration 50]).1.absoluteMin
        ∧ (bodies demoCfg demoVars [inputOfDuration 100, inputOfDuration 50]).1.absoluteMax
          ≤ (bodies demoCfg demoVars ([inputOfDuration 100, inputOfDuration 50]
            ++ [inputOfDuration 200, inputOfDuration 75, inputOfDuration 30,
              inputOfDuration 300])).1.absoluteMax)
      ∧ (∀ (d : Nat) (s : Vars),
          (recordSample d s).absoluteMin ≤ s.absoluteMin
            ∧ s.absoluteMax ≤ (recordSample d s).absoluteMax)
      ∧ (∀ (d e : Nat) (s : Vars), s.resetStats = 0 →
          (intervalBoundary demoCfg d e s).1.absoluteMin = s.absoluteMin
            ∧ (intervalBoundary demoCfg d e s).1.absoluteMax = s.absoluteMax) :=
  ⟨by decide,
    absolute_monotone demoCfg demoVars [inputOfDuration 100, inputOfDuration 50]
      [inputOfDuration 200, inputOfDuration 75, inputOfDuration 30, inputOfDuration 300]
      (by decide)⟩

/-- C5: for all 64-bit timestamps, in either order, `clockdiff` returns the
exact absolute difference (no wraparound), it is symmetric and it is 0
exactly when the two timestamps are equal. -/
theorem clockdiff_abs (starttime endtime : Nat) (hs : starttime < 2 ^ 64)
    (he : endtime < 2 ^ 64) :
    (clockdiff starttime endtime : Int) = |(starttime : Int) - (endtime : Int)|
      ∧ clockdiff starttime endtime = max starttime endtime - min starttime endtime
      ∧ clockdiff starttime endtime = clockdiff endtime starttime
      ∧ (clockdiff starttime endtime = 0 ↔ starttime = endtime) := by
  have key : clockdiff starttime endtime = max starttime endtime - min starttime endtime := by
    unfold clockdiff
    split_ifs with h
    · rw [max_eq_left (le_of_lt h), min_eq_right (le_of_lt h)]
      omega
    · have h' : starttime ≤ endtime := not_lt.mp h
      rw [max_eq_right h', min_eq_left h']
      omega
  have key' : clockdiff endtime starttime = max starttime endtime - min starttime endtime := by
    unfold clockdiff
    split_ifs with h
    · rw [max_eq_right (le_of_lt h), min_eq_left (le_of_lt h)]
      omega
    · have h' : endtime ≤ starttime := not_lt.mp h
      rw [max_eq_left h', min_eq_right h']
      omega
  refine ⟨?_, key, by rw [key, key'], ?_⟩
  · rw [key]
    rcases le_total starttime endtime with h | h
    · rw [max_eq_right h, min_eq_left h, abs_of_nonpos (by omega)]
      omega
    · rw [max_eq_left h, min_eq_right h, abs_of_nonneg (by omega)]
      omega
  · rw [key]
    rcases le_total starttime endtime with h | h
    · rw [max_eq_right h, min_eq_left h]
      omega
    · rw [max_eq_left h, min_eq_right h]
      omega

/-- Witness of `clockdiff_abs`: the end timestamp read below the start. -/
theorem clockdiff_abs_witness :
    (clockdiff 1000 400 : Int) = |((1000 : Nat) : Int) - ((400 : Nat) : Int)|
      ∧ clockdiff 1000 400 = max 1000 400 - min 1000 400
      ∧ clockdiff 1000 400 = clockdiff 400 1000
      ∧ (clockdiff 1000 400 = 0 ↔ 1000 = 400) :=
  clockdiff_abs 1000 400 (by norm_num) (by norm_num)

/-! ### Reset of the absolute statistics -/

theorem loopBody_resetStats (cfg : Config) (st : Vars) (inp : Input) :
    (loopBody cfg st inp).1.resetStats
      = if cfg.displayUpdate ≤ st.tref then 0 else (sampled cfg st inp).resetStats := by
  by_cases hb : cfg.displayUpdate ≤ st.tref
  · rw [loopBody_fst_of_ge cfg st inp hb, if_pos hb]
    by_cases hz : (sampled cfg st inp).resetStats = 0
    · have hz' : ({ sampled cfg st inp with tref := (st.tref + 1) % 2 ^ 32 } : Vars).resetStats
          = 0 := hz
      rw [intervalBoundary_fst_of_zero cfg _ _ _ hz']
      exact hz
    · have hz' : ({ sampled cfg st inp with tref := (st.tref + 1) % 2 ^ 32 } : Vars).resetStats
          ≠ 0 := hz
      rw [intervalBoundary_fst_of_ne cfg _ _ _ hz']
  · rw [loopBody_fst_of_lt cfg st inp (not_le.mp hb), if_neg hb]

/-- C6: boundary processing that finds `resetStats` non-zero ends with
`absoluteMin = MINVAL`, `absoluteMax = 0`, `resetStats = 0`, `SampleNo = 1`
and, under `PROCESSOR_TRACE`, `signaled = 0`, whatever the values before;
the same holds for the variables after any loop iteration that reaches the
boundary with `resetStats` set. -/
theorem reset_at_boundary (cfg : Config) (d e : Nat) (st : Vars) (h : st.resetStats ≠ 0) :
    ((intervalBoundary cfg d e st).1.absoluteMin = MINVAL
        ∧ (intervalBoundary cfg d e st).1.absoluteMax = 0
        ∧ (intervalBoundary cfg d e st).1.resetStats = 0
        ∧ (intervalBoundary cfg d e st).1.SampleNo = 1
        ∧ (cfg.PROCESSOR_TRACE = true → (intervalBoundary cfg d e st).1.signaled = 0))
      ∧ ∀ (st0 : Vars) (inp : Input), resetConsumed cfg st0 inp = true →
          (loopBody cfg st0 inp).1.absoluteMin = MINVAL
            ∧ (loopBody cfg st0 inp).1.absoluteMax = 0
            ∧ (loopBody cfg st0 inp).1.resetStats = 0
            ∧ (loopBody cfg st0 inp).1.SampleNo = 1
            ∧ (cfg.PROCESSOR_TRACE = true → (loopBody cfg st0 inp).1.signaled = 0) := by
  constructor
  · rw [intervalBoundary_fst_of_ne cfg d e st h]
    refine ⟨rfl, rfl, rfl, rfl, ?_⟩
    intro hp
    simp [hp]
  · intro st0 inp hc
    simp only [resetConsumed, Bool.and_eq_true, decide_eq_true_eq] at hc
    have hz' : ({ sampled cfg st0 inp with tref := (st0.tref + 1) % 2 ^ 32 } : Vars).resetStats
        ≠ 0 := hc.2
    rw [loopBody_fst_of_ge cfg st0 inp hc.1, intervalBoundary_fst_of_ne cfg _ _ _ hz']
    refine ⟨rfl, rfl, rfl, rfl, ?_⟩
    intro hp
    simp [hp]

/-- Witness of `reset_at_boundary`: the boundary of `demoPending`, where a
reset is pending. -/
theorem reset_at_boundary_witness :
    demoPending.resetStats ≠ 0
      ∧ ((intervalBoundary demoCfg 75 75 demoPending).1.absoluteMin = MINVAL
        ∧ (intervalBoundary demoCfg 75 75 demoPending).1.absoluteMax = 0
        ∧ (intervalBoundary demoCfg 75 75 demoPending).1.resetStats = 0
        ∧ (intervalBoundary demoCfg 75 75 demoPending).1.SampleNo = 1
        ∧ (demoCfg.PROCESSOR_TRACE = true
            → (intervalBoundary demoCfg 75 75 demoPending).1.signaled = 0))
      ∧ ∀ (st0 : Vars) (inp : Input), resetConsumed demoCfg st0 inp = true →
          (loopBody demoCfg st0 inp).1.absoluteMin = MINVAL
            ∧ (loopBody demoCfg st0 inp).1.absoluteMax = 0
            ∧ (loopBody demoCfg st0 inp).1.resetStats = 0
            ∧ (loopBody demoCfg st0 inp).1.SampleNo = 1
            ∧ (demoCfg.PROCESSOR_TRACE = true → (loopBody demoCfg st0 inp).1.signaled = 0) :=
  ⟨by decide, reset_at_boundary demoCfg 75 75 demoPending (by decide)⟩

/-- C7: boundary processing that finds `resetStats = 0` performs no reset:
`absoluteMin`, `absoluteMax` and `signaled` keep their values, `resetStats`
stays 0 and `SampleNo` is incremented by one as an `unsigned int` (to
`SampleNo + 1` whenever that fits 32 bits); the same holds for a loop
iteration that reaches the boundary with no reset pending, relative to the
values the iteration reached the boundary with. -/
theorem no_reset_at_boundary (cfg : Config) (d e : Nat) (st : Vars) (h : st.resetStats = 0) :
    ((intervalBoundary cfg d e st).1.absoluteMin = st.absoluteMin
        ∧ (intervalBoundary cfg d e st).1.absoluteMax = st.absoluteMax
        ∧ (intervalBoundary cfg d e st).1.resetStats = 0
        ∧ (intervalBoundary cfg d e st).1.SampleNo = (st.SampleNo + 1) % 2 ^ 32
        ∧ (st.SampleNo + 1 < 2 ^ 32 → (intervalBoundary cfg d e st).1.SampleNo = st.SampleNo + 1)
        ∧ (intervalBoundary cfg d e st).1.signaled = st.signaled)
      ∧ ∀ (st0 : Vars) (inp : Input), cfg.displayUpdate ≤ st0.tref →
          (sampled cfg st0 inp).resetStats = 0 →
          (loopBody cfg st0 inp).1.absoluteMin = (sampled cfg st0 inp).absoluteMin
            ∧ (loopBody cfg st0 inp).1.absoluteMax = (sampled cfg st0 inp).absoluteMax
            ∧ (loopBody cfg st0 inp).1.resetStats = 0
            ∧ (loopBody cfg st0 inp).1.SampleNo = (st0.SampleNo + 1) % 2 ^ 32
            ∧ (loopBody cfg st0 inp).1.signaled = (sampled cfg st0 inp).signaled := by
  constructor
  · rw [intervalBoundary_fst_of_zero cfg d e st h]
    refine ⟨rfl, rfl, h, rfl, ?_, rfl⟩
    intro hlt
    exact Nat.mod_eq_of_lt hlt
  · intro st0 inp hb hz
    have hz' : ({ sampled cfg st0 inp with tref := (st0.tref + 1) % 2 ^ 32 } : Vars).resetStats
        = 0 := hz
    rw [loopBody_fst_of_ge cfg st0 inp hb, intervalBoundary_fst_of_zero cfg _ _ _ hz']
    refine ⟨rfl, rfl, hz, ?_, rfl⟩
    simp [sampled_SampleNo]

/-- Witness of `no_reset_at_boundary`: a boundary of `demoVars`, where no
reset is pending. -/
theorem no_reset_at_boundary_witness :
    demoVars.resetStats = 0
      ∧ ((intervalBoundary demoCfg 75 75 demoVars).1.absoluteMin = demoVars.absoluteMin
        ∧ (intervalBoundary demoCfg 75 75 demoVars).1.absoluteMax = demoVars.absoluteMax
        ∧ (intervalBoundary demoCfg 75 75 demoVars).1.resetStats = 0
        ∧ (intervalBoundary demoCfg 75 75 demoVars).1.SampleNo = (demoVars.SampleNo + 1) % 2 ^ 32
        ∧ (demoVars.SampleNo + 1 < 2 ^ 32
            → (intervalBoundary demoCfg 75 75 demoVars).1.SampleNo = demoVars.SampleNo + 1)
        ∧ (intervalBoundary demoCfg 75 75 demoVars).1.signaled = demoVars.signaled)
      ∧ ∀ (st0 : Vars) (inp : Input), demoCfg.displayUpdate ≤ st0.tref →
          (sampled demoCfg st0 inp).resetStats = 0 →
          (loopBody demoCfg st0 inp).1.absoluteMin = (sampled demoCfg st0 inp).absoluteMin
            ∧ (loopBody demoCfg st0 inp).1.absoluteMax = (sampled demoCfg st0 inp).absoluteMax
            ∧ (loopBody demoCfg st0 inp).1.resetStats = 0
            ∧ (loopBody demoCfg st0 inp).1.SampleNo = (st0.SampleNo + 1) % 2 ^ 32
            ∧ (loopBody demoCfg st0 inp).1.signaled = (sampled demoCfg st0 inp).signaled :=
  ⟨rfl, no_reset_at_boundary demoCfg 75 75 demoVars rfl⟩


/-! ### The reset request -/

theorem duration_of_quiet_eq (x y : Input) (h : quiet x = quiet y) :
    duration x = duration y ∧ endTimeOf x = endTimeOf y := by
  cases x
  cases y
  simp only [quiet, Input.mk.injEq] at h
  obtain ⟨h1, h2, h3, -⟩ := h
  subst h1 h2 h3
  exact ⟨rfl, rfl⟩

theorem sameButReset_of_eq (a b : Vars) (h : sameButReset a b)
    (hr : a.resetStats = b.resetStats) : a = b := by
  cases a
  cases b
  simp only [sameButReset, Vars.mk.injEq] at h
  simp only at hr
  simp only [Vars.mk.injEq]
  tauto

theorem sampled_sameButReset (cfg : Config) (st st' : Vars) (x y : Input)
    (h : sameButReset st st') (hq : quiet x = quiet y) :
    sameButReset (sampled cfg st x) (sampled cfg st' y) := by
  obtain ⟨hd, -⟩ := duration_of_quiet_eq x y hq
  cases st
  cases st'
  simp only [sameButReset, Vars.mk.injEq, true_and] at h
  obtain ⟨h1, h2, h3, h4, h5, h6, h7, h8, h9⟩ := h
  subst h1 h2 h3 h4 h5 h6 h7 h8 h9
  simp [sameButReset, sampled, measured, perfTrigger_fst, deliver_fst, recordSample,
    triggerCond, hd]

/-- The state after iterations inside one display interval depends on the
handled signals only through `resetStats`. -/
theorem bodies_sameButReset (cfg : Config) (xs : List Input) (ys : List Input)
    (st st' : Vars) (h : sameButReset st st') (hq : xs.map quiet = ys.map quiet)
    (hin : st.tref + xs.length ≤ cfg.displayUpdate) :
    sameButReset (bodies cfg st xs).1 (bodies cfg st' ys).1 := by
  induction xs generalizing ys st st' with
  | nil =>
    cases ys with
    | nil => simpa [bodies] using h
    | cons y rest => simp at hq
  | cons x rest ih =>
    cases ys with
    | nil => simp at hq
    | cons y rest' =>
      simp only [List.map_cons, List.cons.injEq] at hq
      simp only [List.length_cons] at hin
      have ht : st'.tref = st.tref := by
        have := congrArg Vars.tref h
        simpa using this.symm
      have hlt : st.tref < cfg.displayUpdate := by omega
      have hlt' : st'.tref < cfg.displayUpdate := by omega
      have hs := sampled_sameButReset cfg st st' x y h hq.1
      have hstep : sameButReset (loopBody cfg st x).1 (loopBody cfg st' y).1 := by
        rw [loopBody_fst_of_lt cfg st x hlt, loopBody_fst_of_lt cfg st' y hlt', ht]
        simp only [sameButReset, Vars.mk.injEq, true_and] at hs ⊢
        tauto
      have htref : (loopBody cfg st x).1.tref ≤ st.tref + 1 := by
        rw [loopBody_fst_of_lt cfg st x hlt]
        exact Nat.mod_le _ _
      simp only [bodies]
      exact ih rest' _ _ hstep hq.2 (by omega)

/-- Inside one display interval `resetStats` is 1 as soon as one handled
signal was `SIGUSR1`, and it is the value before otherwise. -/
theorem bodies_inside_resetStats (cfg : Config) (xs : List Input) (st : Vars)
    (hin : st.tref + xs.length ≤ cfg.displayUpdate) :
    (bodies cfg st xs).1.resetStats
      = if ∃ x ∈ xs, SIGUSR1 ∈ x.signals then 1 else st.resetStats := by
  induction xs generalizing st with
  | nil => simp [bodies]
  | cons x rest ih =>
    simp only [List.length_cons] at hin
    have hlt : st.tref < cfg.displayUpdate := by omega
    have htref : (loopBody cfg st x).1.tref ≤ st.tref + 1 := by
      rw [loopBody_fst_of_lt cfg st x hlt]
      exact Nat.mod_le _ _
    have hr : (loopBody cfg st x).1.resetStats
        = if SIGUSR1 ∈ x.signals then 1 else st.resetStats := by
      rw [loopBody_resetStats, if_neg (not_le.mpr hlt), sampled_resetStats]
    simp only [bodies]
    rw [ih _ (by omega), hr]
    by_cases h1 : SIGUSR1 ∈ x.signals
    · simp [h1]
    · simp [h1]

/-- Without a handled `SIGUSR1` and from `resetStats = 0` no iteration
consumes a reset. -/
theorem noResetConsumed_of_quiet (cfg : Config) (ys : List Input) (st : Vars)
    (h0 : st.resetStats = 0) (hq : ∀ y ∈ ys, SIGUSR1 ∉ y.signals) :
    noResetConsumed cfg st ys = true := by
  induction ys generalizing st with
  | nil => rfl
  | cons y rest ih =>
    have hy : SIGUSR1 ∉ y.signals := hq y (List.mem_cons_self _ _)
    have hs : (sampled cfg st y).resetStats = 0 := by
      rw [sampled_resetStats, if_neg hy, h0]
    have hr : (loopBody cfg st y).1.resetStats = 0 := by
      rw [loopBody_resetStats]
      split_ifs
      · rfl
      · exact hs
    simp only [noResetConsumed, Bool.and_eq_true, Bool.not_eq_true', resetConsumed,
      Bool.and_eq_false_iff, decide_eq_false_iff_not]
    refine ⟨Or.inr (by simp [hs]), ih _ hr ?_⟩
    intro z hz
    exact hq z (List.mem_cons_of_mem _ hz)

/-- C8: `n ≥ 1` runs of the handler for `SIGUSR1` leave the same state as one
run, which only sets `resetStats` to 1; a run of the handler for another
signal number changes nothing.  Inside one display interval any two
distributions of handled signals over the same samples with at least one
`SIGUSR1` each lead to the same state.  The boundary reached next consumes
the reset, and the iterations after it consume none as long as no further
`SIGUSR1` is handled. -/
theorem reset_requests_collapse (cfg : Config) (st : Vars) (n : Nat) (hn : 1 ≤ n) :
    (deliver (List.replicate n SIGUSR1) st).1 = (signalHandler SIGUSR1 st).1
      ∧ (signalHandler SIGUSR1 st).1 = { st with resetStats := 1 }
      ∧ (∀ signalno : Int, signalno ≠ SIGUSR1 → signalHandler signalno st = (st, []))
      ∧ (∀ xs ys : List Input, xs.map quiet = ys.map quiet →
          st.tref + xs.length ≤ cfg.displayUpdate →
          (∃ x ∈ xs, SIGUSR1 ∈ x.signals) → (∃ y ∈ ys, SIGUSR1 ∈ y.signals) →
          (bodies cfg st xs).1 = (bodies cfg st ys).1)
      ∧ (∀ (xs : List Input) (b : Input) (zs : List Input),
          st.tref + xs.length = cfg.displayUpdate → cfg.displayUpdate < 2 ^ 32 →
          (∃ x ∈ xs ++ [b], SIGUSR1 ∈ x.signals) → (∀ z ∈ zs, SIGUSR1 ∉ z.signals) →
          resetConsumed cfg (bodies cfg st xs).1 b = true
            ∧ noResetConsumed cfg (loopBody cfg (bodies cfg st xs).1 b).1 zs = true) := by
  refine ⟨?_, ?_, ?_, ?_, ?_⟩
  · rw [deliver_fst, signalHandler_fst]
    have hmem : SIGUSR1 ∈ List.replicate n SIGUSR1 :=
      List.mem_replicate.mpr ⟨by omega, rfl⟩
    simp [hmem]
  · rw [signalHandler_fst]
    simp
  · intro signalno hne
    simp [signalHandler, hne]
  · intro xs ys hq hin hx hy
    have hlen : ys.length = xs.length := by
      have := congrArg List.length hq
      simpa using this.symm
    have hsame : sameButReset st st := rfl
    apply sameButReset_of_eq _ _ (bodies_sameButReset cfg xs ys st st hsame hq hin)
    rw [bodies_inside_resetStats cfg xs st hin,
      bodies_inside_resetStats cfg ys st (by omega), if_pos hx, if_pos hy]
  · intro xs b zs hin hD hsig hzs
    have hb : cfg.displayUpdate ≤ (bodies cfg st xs).1.tref := by
      rw [(bodies_inside cfg xs st (le_of_eq hin)).2.2.2.2.2.2.2 hD, hin]
    have h1 : (sampled cfg (bodies cfg st xs).1 b).resetStats = 1 := by
      rw [sampled_resetStats, bodies_inside_resetStats cfg xs st (le_of_eq hin)]
      obtain ⟨x, hx, hxs⟩ := hsig
      rcases List.mem_append.mp hx with hx | hx
      · have : ∃ x ∈ xs, SIGUSR1 ∈ x.signals := ⟨x, hx, hxs⟩
        simp [this]
      · rw [List.mem_singleton.mp hx] at hxs
        simp [hxs]
    have hc : resetConsumed cfg (bodies cfg st xs).1 b = true := by
      simp only [resetConsumed, Bool.and_eq_true, decide_eq_true_eq]
      exact ⟨hb, by rw [h1]; decide⟩
    refine ⟨hc, noResetConsumed_of_quiet cfg zs _ ?_ hzs⟩
    rw [loopBody_resetStats, if_pos hb]

/-- Witness of `reset_requests_collapse`: three `SIGUSR1` handled from the
state `demoVars`. -/
theorem reset_requests_collapse_witness :
    1 ≤ 3
      ∧ (deliver (List.replicate 3 SIGUSR1) demoVars).1 = (signalHandler SIGUSR1 demoVars).1
      ∧ (signalHandler SIGUSR1 demoVars).1 = { demoVars with resetStats := 1 }
      ∧ (∀ signalno : Int, signalno ≠ SIGUSR1 → signalHandler signalno demoVars = (demoVars, []))
      ∧ (∀ xs ys : List Input, xs.map quiet = ys.map quiet →
          demoVars.tref + xs.length ≤ demoCfg.displayUpdate →
          (∃ x ∈ xs, SIGUSR1 ∈ x.signals) → (∃ y ∈ ys, SIGUSR1 ∈ y.signals) →
          (bodies demoCfg demoVars xs).1 = (bodies demoCfg demoVars ys).1)
      ∧ (∀ (xs : List Input) (b : Input) (zs : List Input),
          demoVars.tref + xs.length = demoCfg.displayUpdate → demoCfg.displayUpdate < 2 ^ 32 →
          (∃ x ∈ xs ++ [b], SIGUSR1 ∈ x.signals) → (∀ z ∈ zs, SIGUSR1 ∉ z.signals) →
          resetConsumed demoCfg (bodies demoCfg demoVars xs).1 b = true
            ∧ noResetConsumed demoCfg (loopBody demoCfg (bodies demoCfg demoVars xs).1 b).1 zs
                = true) :=
  ⟨by decide, reset_requests_collapse demoCfg demoVars 3 (by decide)⟩

/-- The collapse evaluated on `demoCfg`: three `SIGUSR1` spread over an
interval and a single one lead to the same variables, the boundary resets
the absolute statistics once, and the next boundary keeps the new ones. -/
theorem reset_requests_example :
    (bodies demoCfg demoVars
        [{ inputOfDuration 100 with signals := [SIGUSR1, SIGUSR1] }, inputOfDuration 50,
          { inputOfDuration 200 with signals := [SIGUSR1] }]).1
      = (bodies demoCfg demoVars
        [inputOfDuration 100, { inputOfDuration 50 with signals := [SIGUSR1] },
          inputOfDuration 200]).1
      ∧ (bodies demoCfg demoVars
        [{ inputOfDuration 100 with signals := [SIGUSR1, SIGUSR1] }, inputOfDuration 50,
          { inputOfDuration 200 with signals := [SIGUSR1] }, inputOfDuration 75]).1
        = { demoVars with lasttime := some 75 }
      ∧ (bodies demoCfg demoVars
        [{ inputOfDuration 100 with signals := [SIGUSR1, SIGUSR1] }, inputOfDuration 50,
          { inputOfDuration 200 with signals := [SIGUSR1] }, inputOfDuration 75,
          inputOfDuration 30, inputOfDuration 40, inputOfDuration 60, inputOfDuration 35]).1
        = { demoVars with
            lasttime := some 35, SampleNo := 2, absoluteMin := 30, absoluteMax := 60 } := by
  decide


/-! ### The anomaly trigger -/

theorem deliver_snd_kill (l : List Int) (st : Vars) :
    (deliver l st).2.filter isKill = [] := by
  induction l generalizing st with
  | nil => simp [deliver]
  | cons s rest ih =>
    simp only [deliver, List.filter_append, ih, List.append_nil]
    unfold signalHandler
    split_ifs <;> simp [isKill]

theorem displayUpdateStep_snd_kill (cfg : Config) (d e : Nat) (st : Vars) :
    (displayUpdateStep cfg d e st).2.filter isKill = [] := by
  simp only [displayUpdateStep, intervalBoundary]
  split_ifs <;> simp [isKill, statsLineOf]

theorem measured_signaled (cfg : Config) (st : Vars) (inp : Input) :
    (measured cfg st inp).signaled = st.signaled := by
  simp [measured, recordSample, deliver_fst]

theorem measured_SampleNo (cfg : Config) (st : Vars) (inp : Input) :
    (measured cfg st inp).SampleNo = st.SampleNo := by
  simp [measured, recordSample, deliver_fst]

/-- The `kill` calls of one iteration are those of the trigger section. -/
theorem loopBody_snd_kill (cfg : Config) (st : Vars) (inp : Input) :
    (loopBody cfg st inp).2.filter isKill
      = if (cfg.PROCESSOR_TRACE && triggerCond cfg (duration inp) (measured cfg st inp)) = true
        then [Output.kill cfg.perf_pid SIGUSR2] else [] := by
  simp only [loopBody, List.filter_append, deliver_snd_kill, displayUpdateStep_snd_kill,
    List.nil_append, List.append_nil, perfTrigger]
  split_ifs <;> simp [isKill]

theorem triggerCond_true (cfg : Config) (d : Nat) (st : Vars)
    (h : triggerCond cfg d st = true) :
    cfg.perf_pid ≠ -1 ∧ skip < st.SampleNo ∧ st.signaled = 0
      ∧ cfg.jitter_threshold < (d + 2 ^ 64 - st.TransientMin) % 2 ^ 64 := by
  simpa [triggerCond, and_assoc] using h

/-- An iteration that starts with `signaled` set sends nothing. -/
theorem loopBody_no_kill_of_signaled (cfg : Config) (st : Vars) (inp : Input)
    (h : st.signaled ≠ 0) : (loopBody cfg st inp).2.filter isKill = [] := by
  rw [loopBody_snd_kill]
  split_ifs with hc
  · simp only [Bool.and_eq_true] at hc
    have := (triggerCond_true cfg _ _ hc.2).2.2.1
    rw [measured_signaled] at this
    exact absurd this h
  · rfl

theorem sampled_signaled (cfg : Config) (st : Vars) (inp : Input) :
    (sampled cfg st inp).signaled
      = if (cfg.PROCESSOR_TRACE && triggerCond cfg (duration inp) (measured cfg st inp)) = true
        then 1 else st.signaled := by
  simp only [sampled, perfTrigger_fst, measured_signaled]

/-- Unless the iteration consumes a reset, `signaled` after it is the value
the trigger section left. -/
theorem loopBody_signaled (cfg : Config) (st : Vars) (inp : Input)
    (h : resetConsumed cfg st inp = false) :
    (loopBody cfg st inp).1.signaled = (sampled cfg st inp).signaled := by
  by_cases hb : cfg.displayUpdate ≤ st.tref
  · have hz : (sampled cfg st inp).resetStats = 0 := by
      simpa [resetConsumed, hb] using h
    have hz' : ({ sampled cfg st inp with tref := (st.tref + 1) % 2 ^ 32 } : Vars).resetStats
        = 0 := hz
    rw [loopBody_fst_of_ge cfg st inp hb, intervalBoundary_fst_of_zero cfg _ _ _ hz']
  · rw [loopBody_fst_of_lt cfg st inp (not_le.mp hb)]

/-- While no reset is consumed, a set `signaled` stays set and nothing is
sent. -/
theorem bodies_no_kill_of_signaled (cfg : Config) (seg : List Input) (st : Vars)
    (hs : st.signaled ≠ 0) (h : noResetConsumed cfg st seg = true) :
    (bodies cfg st seg).2.filter isKill = [] ∧ (bodies cfg st seg).1.signaled ≠ 0 := by
  induction seg generalizing st with
  | nil => simpa [bodies] using hs
  | cons x rest ih =>
    simp only [noResetConsumed, Bool.and_eq_true, Bool.not_eq_true'] at h
    have h1 := loopBody_no_kill_of_signaled cfg st x hs
    have h2 : (loopBody cfg st x).1.signaled ≠ 0 := by
      rw [loopBody_signaled cfg st x h.1, sampled_signaled]
      split_ifs
      · decide
      · exact hs
    have h3 := ih (loopBody cfg st x).1 h2 h.2
    simp only [bodies, List.filter_append, h1, List.nil_append]
    exact h3

/-- While no reset is consumed at most one `kill` is sent, and after it
`signaled` is set. -/
theorem bodies_kill_le_one (cfg : Config) (seg : List Input) (st : Vars)
    (h : noResetConsumed cfg st seg = true) :
    ((bodies cfg st seg).2.filter isKill).length ≤ 1
      ∧ ((bodies cfg st seg).2.filter isKill ≠ [] → (bodies cfg st seg).1.signaled ≠ 0) := by
  induction seg generalizing st with
  | nil => simp [bodies]
  | cons x rest ih =>
    simp only [noResetConsumed, Bool.and_eq_true, Bool.not_eq_true'] at h
    simp only [bodies, List.filter_append]
    by_cases hc : (cfg.PROCESSOR_TRACE && triggerCond cfg (duration x) (measured cfg st x)) = true
    · have h2 : (loopBody cfg st x).1.signaled ≠ 0 := by
        rw [loopBody_signaled cfg st x h.1, sampled_signaled, if_pos hc]
        decide
      have h3 := bodies_no_kill_of_signaled cfg rest _ h2 h.2
      rw [loopBody_snd_kill, if_pos hc, h3.1]
      exact ⟨by simp, fun _ => h3.2⟩
    · have h3 := ih (loopBody cfg st x).1 h.2
      rw [loopBody_snd_kill, if_neg hc, List.nil_append]
      exact h3

/-- C9: in every run, from any state, the iterations between two consumed
resets (`seg`, in which no reset is consumed, followed by one more iteration
`last`, which may consume the next reset after its trigger section) send
`kill` at most once; an iteration sends `kill` only when it starts with
`SampleNo > 5` and `signaled = 0`, with the trigger compiled in and a target
configured, and then it sends exactly `kill(perf_pid, SIGUSR2)` once; and a
consumed reset restarts the settle period with `SampleNo = 1`. -/
theorem kill_once_per_epoch (cfg : Config) (st : Vars) (seg : List Input) (last : Input)
    (h : noResetConsumed cfg st seg = true) :
    ((bodies cfg st (seg ++ [last])).2.filter isKill).length ≤ 1
      ∧ (∀ (s : Vars) (x : Input), (loopBody cfg s x).2.filter isKill ≠ [] →
          5 < s.SampleNo ∧ s.signaled = 0 ∧ cfg.PROCESSOR_TRACE = true ∧ cfg.perf_pid ≠ -1
            ∧ (loopBody cfg s x).2.filter isKill = [Output.kill cfg.perf_pid SIGUSR2])
      ∧ (∀ (s : Vars) (x : Input), s.SampleNo ≤ 5 → (loopBody cfg s x).2.filter isKill = [])
      ∧ (∀ (s : Vars) (x : Input), resetConsumed cfg s x = true →
          (loopBody cfg s x).1.SampleNo = 1) := by
  have key : ∀ (s : Vars) (x : Input), (loopBody cfg s x).2.filter isKill ≠ [] →
      5 < s.SampleNo ∧ s.signaled = 0 ∧ cfg.PROCESSOR_TRACE = true ∧ cfg.perf_pid ≠ -1
        ∧ (loopBody cfg s x).2.filter isKill = [Output.kill cfg.perf_pid SIGUSR2] := by
    intro s x hk
    rw [loopBody_snd_kill] at hk ⊢
    split_ifs at hk ⊢ with hc
    · simp only [Bool.and_eq_true] at hc
      obtain ⟨t1, t2, t3, -⟩ := triggerCond_true cfg _ _ hc.2
      rw [measured_SampleNo] at t2
      rw [measured_signaled] at t3
      exact ⟨t2, t3, hc.1, t1, rfl⟩
    · exact absurd rfl hk
  refine ⟨?_, key, ?_, ?_⟩
  · rw [bodies_append, bodies_singleton]
    simp only [List.filter_append, List.length_append]
    obtain ⟨k1, k2⟩ := bodies_kill_le_one cfg seg st h
    by_cases hk : (bodies cfg st seg).2.filter isKill = []
    · rw [hk, loopBody_snd_kill]
      split_ifs <;> simp
    · rw [loopBody_no_kill_of_signaled cfg _ last (k2 hk)]
      simpa using k1
  · intro s x hs
    by_contra hk
    exact absurd (key s x hk).1 (not_lt.mpr hs)
  · intro s x hc
    simp only [resetConsumed, Bool.and_eq_true, decide_eq_true_eq] at hc
    have hz' : ({ sampled cfg s x with tref := (s.tref + 1) % 2 ^ 32 } : Vars).resetStats
        ≠ 0 := hc.2
    rw [loopBody_fst_of_ge cfg s x hc.1, intervalBoundary_fst_of_ne cfg _ _ _ hz']


/-- Witness of `kill_once_per_epoch`: a run of `demoCfg` past the settle
period in which two samples exceed the interval minimum by more than the
threshold. -/
theorem kill_once_per_epoch_witness :
    noResetConsumed demoCfg demoArmed
        [inputOfDuration 100, inputOfDuration 20000, inputOfDuration 30000] = true
      ∧ ((bodies demoCfg demoArmed ([inputOfDuration 100, inputOfDuration 20000,
            inputOfDuration 30000] ++ [inputOfDuration 50000])).2.filter isKill).length ≤ 1
      ∧ (∀ (s : Vars) (x : Input), (loopBody demoCfg s x).2.filter isKill ≠ [] →
          5 < s.SampleNo ∧ s.signaled = 0 ∧ demoCfg.PROCESSOR_TRACE = true
            ∧ demoCfg.perf_pid ≠ -1
            ∧ (loopBody demoCfg s x).2.filter isKill = [Output.kill demoCfg.perf_pid SIGUSR2])
      ∧ (∀ (s : Vars) (x : Input), s.SampleNo ≤ 5 →
          (loopBody demoCfg s x).2.filter isKill = [])
      ∧ (∀ (s : Vars) (x : Input), resetConsumed demoCfg s x = true →
          (loopBody demoCfg s x).1.SampleNo = 1) :=
  ⟨by decide,
    kill_once_per_epoch demoCfg demoArmed
      [inputOfDuration 100, inputOfDuration 20000, inputOfDuration 30000]
      (inputOfDuration 50000) (by decide)⟩

/-- The trigger evaluated on `demoCfg`: past the settle period the first
sample 15000 cycles above the interval minimum sends the one `kill`; the
same samples within the settle period send nothing; after a consumed reset
the trigger can fire again once `SampleNo` has passed 5 again. -/
theorem kill_example :
    (bodies demoCfg demoArmed [inputOfDuration 100, inputOfDuration 20000,
        inputOfDuration 30000, inputOfDuration 50000]).2.filter isKill
      = [Output.kill 4242 12]
      ∧ (bodies demoCfg demoVars [inputOfDuration 100, inputOfDuration 20000,
        inputOfDuration 30000, inputOfDuration 50000]).2.filter isKill = []
      ∧ (bodies demoCfg { demoArmed with signaled := 1, resetStats := 1, tref := 4 }
          [inputOfDuration 100, inputOfDuration 100, inputOfDuration 20000]).2.filter isKill = []
      ∧ (bodies demoCfg { demoArmed with signaled := 1, resetStats := 1, tref := 4 }
          [inputOfDuration 100]).1.signaled = 0
      ∧ (bodies demoCfg { demoArmed with signaled := 0, SampleNo := 6, tref := 1 }
          [inputOfDuration 100, inputOfDuration 100, inputOfDuration 20000]).2.filter isKill
        = [Output.kill 4242 12] := by
  decide


/-! ### The title cadence -/

theorem deliver_snd_of_quiet (l : List Int) (st : Vars) (h : SIGUSR1 ∉ l) :
    (deliver l st).2 = [] := by
  induction l generalizing st with
  | nil => rfl
  | cons s rest ih =>
    have h1 : s ≠ SIGUSR1 := fun e => h (e ▸ List.mem_cons_self _ _)
    have h2 : SIGUSR1 ∉ rest := fun e => h (List.mem_cons_of_mem _ e)
    simp [deliver, signalHandler, h1, ih _ h2]

theorem perfTrigger_snd_printed (cfg : Config) (d : Nat) (st : Vars) :
    (perfTrigger cfg d st).2.filter isPrinted = [] := by
  unfold perfTrigger
  split_ifs <;> simp [isPrinted]

theorem mainLoop_snd_cons (cfg : Config) (st : Vars) (x : Input) (rest : List Input) :
    (mainLoop cfg st (x :: rest)).2.1
      = (loopBody cfg st x).2
        ++ (if (loopBody cfg st x).1.SampleNo ≤ cfg.iterations then
              (mainLoop cfg (loopBody cfg st x).1 rest).2.1
            else []) := by
  simp only [mainLoop]
  split_ifs <;> simp

theorem intervalBoundary_snd_of_zero (cfg : Config) (d e : Nat) (st : Vars)
    (h : st.resetStats = 0) :
    (intervalBoundary cfg d e st).2
      = (if 0 < st.SampleNo then [statsLineOf d e st] else [])
        ++ (if (st.SampleNo + 1) % 2 ^ 32 % 40 = 0 then [Output.title] else []) := by
  simp [intervalBoundary, consumeReset, h]

/-- What an iteration prints when no `SIGUSR1` is handled and no reset is
pending: nothing inside the interval; at the boundary the statistics line
(unless `SampleNo` is 0) and the title when the new `SampleNo` is a multiple
of 40. -/
theorem loopBody_snd_printed (cfg : Config) (st : Vars) (inp : Input)
    (hq : SIGUSR1 ∉ inp.signals) (h0 : st.resetStats = 0) :
    (loopBody cfg st inp).2.filter isPrinted
      = if cfg.displayUpdate ≤ st.tref then
          (if 0 < st.SampleNo then
              [statsLineOf (duration inp) (endTimeOf inp)
                { sampled cfg st inp with tref := (st.tref + 1) % 2 ^ 32 }]
            else [])
            ++ (if (st.SampleNo + 1) % 2 ^ 32 % 40 = 0 then [Output.title] else [])
        else [] := by
  have hz : (sampled cfg st inp).resetStats = 0 := by
    rw [sampled_resetStats, if_neg hq, h0]
  have hz' : ({ sampled cfg st inp with tref := (st.tref + 1) % 2 ^ 32 } : Vars).resetStats
      = 0 := hz
  simp only [loopBody, List.filter_append, deliver_snd_of_quiet _ st hq, List.filter_nil,
    List.nil_append, perfTrigger_snd_printed, displayUpdateStep, sampled_tref]
  by_cases hb : cfg.displayUpdate ≤ st.tref
  · have hb' : st.tref ≥ cfg.displayUpdate := hb
    rw [if_pos hb', if_pos hb, intervalBoundary_snd_of_zero cfg _ _ _ hz']
    simp only [sampled_SampleNo, List.filter_append]
    congr 1
    · split_ifs <;> simp [isPrinted, statsLineOf]
    · split_ifs <;> simp [isPrinted]
  · have hb' : ¬ st.tref ≥ cfg.displayUpdate := hb
    rw [if_neg hb', if_neg hb]
    rfl

/-- The counter `SampleNo` after an iteration in which no `SIGUSR1` is
handled and no reset is pending; no reset is pending afterwards either. -/
theorem loopBody_SampleNo_quiet (cfg : Config) (st : Vars) (inp : Input)
    (hq : SIGUSR1 ∉ inp.signals) (h0 : st.resetStats = 0) :
    (loopBody cfg st inp).1.SampleNo
        = (if cfg.displayUpdate ≤ st.tref then (st.SampleNo + 1) % 2 ^ 32 else st.SampleNo)
      ∧ (loopBody cfg st inp).1.resetStats = 0 := by
  have hz : (sampled cfg st inp).resetStats = 0 := by
    rw [sampled_resetStats, if_neg hq, h0]
  constructor
  · split_ifs with hb
    · have hz' : ({ sampled cfg st inp with tref := (st.tref + 1) % 2 ^ 32 } : Vars).resetStats
          = 0 := hz
      rw [loopBody_fst_of_ge cfg st inp hb, intervalBoundary_fst_of_zero cfg _ _ _ hz']
      simp [sampled_SampleNo]
    · rw [loopBody_fst_of_lt cfg st inp (not_le.mp hb)]
      simp [sampled_SampleNo]
  · rw [loopBody_resetStats]
    split_ifs
    · rfl
    · exact hz

theorem statsLineOf_isStatsLine (d e : Nat) (st : Vars) :
    isStatsLine (statsLineOf d e st) = true := rfl

theorem filter_isStatsLine_printed (l : List Output) :
    (l.filter isPrinted).filter isStatsLine = l.filter isStatsLine := by
  induction l with
  | nil => rfl
  | cons o rest ih =>
    cases o <;> simp [List.filter_cons, isPrinted, isStatsLine, ih]

/-- The scan finds the `n`-th statistics line when there are `n` of them. -/
theorem headerBeforeAux_isSome (l : List Output) (prev : Bool) (n : Nat) (h1 : 1 ≤ n)
    (hn : n ≤ (l.filter isStatsLine).length) :
    ∃ b, headerBeforeAux l prev n = some b := by
  induction l generalizing prev n with
  | nil =>
    simp at hn
    omega
  | cons o rest ih =>
    simp only [headerBeforeAux]
    by_cases ho : isStatsLine o = true
    · rw [if_pos ho]
      by_cases hn1 : n = 1
      · exact ⟨prev, by rw [if_pos hn1]⟩
      · rw [if_neg hn1]
        apply ih
        · omega
        · simp only [List.filter_cons, ho, if_true, List.length_cons] at hn
          omega
    · rw [if_neg ho]
      apply ih _ _ h1
      simpa [List.filter_cons, ho] using hn

theorem headerBeforeAux_line (o : Output) (l : List Output) (prev : Bool) (n : Nat)
    (ho : isStatsLine o = true) :
    headerBeforeAux (o :: l) prev n
      = if n = 1 then some prev else headerBeforeAux l false (n - 1) := by
  simp [headerBeforeAux, ho]

theorem headerBeforeAux_title (l : List Output) (prev : Bool) (n : Nat) :
    headerBeforeAux (Output.title :: l) prev n = headerBeforeAux l true n := by
  simp [headerBeforeAux, isStatsLine]

/-- In a run without reset request the `n`-th statistics line still to come
carries the number `max SampleNo 1 + n - 1`, and for `n ≥ 2` a title is
printed directly before it exactly when that number is a multiple of 40. -/
theorem mainLoop_headerBefore (cfg : Config) (inps : List Input) (st : Vars) (prev : Bool)
    (n : Nat) (b : Bool) (hq : ∀ x ∈ inps, SIGUSR1 ∉ x.signals) (h0 : st.resetStats = 0)
    (h1 : 1 ≤ n) (hw : max st.SampleNo 1 + n < 2 ^ 32)
    (hb : headerBeforeAux ((mainLoop cfg st inps).2.1.filter isPrinted) prev n = some b) :
    b = if n = 1 then prev else decide ((max st.SampleNo 1 + n - 1) % 40 = 0) := by
  induction inps generalizing st prev n b with
  | nil => simp [mainLoop, headerBeforeAux] at hb
  | cons x rest ih =>
    have hx : SIGUSR1 ∉ x.signals := hq x (List.mem_cons_self _ _)
    have hrest : ∀ y ∈ rest, SIGUSR1 ∉ y.signals := fun y hy => hq y (List.mem_cons_of_mem _ hy)
    obtain ⟨hS, hR⟩ := loopBody_SampleNo_quiet cfg st x hx h0
    have hw1 : st.SampleNo + n < 2 ^ 32 := lt_of_le_of_lt (by omega) hw
    have hw2 : 1 + n < 2 ^ 32 := lt_of_le_of_lt (by omega) hw
    have hcont : ∀ (p : Bool) (m : Nat),
        headerBeforeAux (List.filter isPrinted
          (if (loopBody cfg st x).1.SampleNo ≤ cfg.iterations then
            (mainLoop cfg (loopBody cfg st x).1 rest).2.1 else [])) p m = some b →
        headerBeforeAux (List.filter isPrinted
          (mainLoop cfg (loopBody cfg st x).1 rest).2.1) p m = some b := by
      intro p m h
      split_ifs at h with hc
      · exact h
      · simp [headerBeforeAux] at h
    rw [mainLoop_snd_cons, List.filter_append, loopBody_snd_printed cfg st x hx h0] at hb
    by_cases hbd : cfg.displayUpdate ≤ st.tref
    · rw [if_pos hbd] at hb hS
      have hmod : (st.SampleNo + 1) % 2 ^ 32 = st.SampleNo + 1 := Nat.mod_eq_of_lt (by omega)
      rw [hmod] at hb hS
      by_cases hk : 0 < st.SampleNo
      · have hmax : max st.SampleNo 1 = st.SampleNo := max_eq_left hk
        have hmax' : max (st.SampleNo + 1) 1 = st.SampleNo + 1 := max_eq_left (by omega)
        rw [if_pos hk] at hb
        by_cases hn1 : n = 1
        · simp only [List.cons_append, List.nil_append] at hb
          rw [headerBeforeAux_line _ _ _ _ (statsLineOf_isStatsLine _ _ _), if_pos hn1] at hb
          rw [if_pos hn1]
          exact (Option.some.inj hb).symm
        · rw [if_neg hn1, hmax]
          by_cases ht : (st.SampleNo + 1) % 40 = 0
          · rw [if_pos ht] at hb
            simp only [List.cons_append, List.nil_append] at hb
            rw [headerBeforeAux_line _ _ _ _ (statsLineOf_isStatsLine _ _ _), if_neg hn1,
              headerBeforeAux_title] at hb
            have := ih (loopBody cfg st x).1 true (n - 1) b hrest hR (by omega)
              (by rw [hS, hmax']; omega) (hcont _ _ hb)
            rw [this, hS, hmax']
            by_cases hn2 : n - 1 = 1
            · have h3 : st.SampleNo + n - 1 = st.SampleNo + 1 := by omega
              simp [hn2, h3, ht]
            · have h3 : st.SampleNo + 1 + (n - 1) - 1 = st.SampleNo + n - 1 := by omega
              simp [hn2, h3]
          · rw [if_neg ht] at hb
            simp only [List.cons_append, List.nil_append, List.append_nil] at hb
            rw [headerBeforeAux_line _ _ _ _ (statsLineOf_isStatsLine _ _ _), if_neg hn1] at hb
            have := ih (loopBody cfg st x).1 false (n - 1) b hrest hR (by omega)
              (by rw [hS, hmax']; omega) (hcont _ _ hb)
            rw [this, hS, hmax']
            by_cases hn2 : n - 1 = 1
            · have h3 : st.SampleNo + n - 1 = st.SampleNo + 1 := by omega
              simp [hn2, h3, ht]
            · have h3 : st.SampleNo + 1 + (n - 1) - 1 = st.SampleNo + n - 1 := by omega
              simp [hn2, h3]
      · have hk0 : st.SampleNo = 0 := by omega
        have ht : ¬ (st.SampleNo + 1) % 40 = 0 := by rw [hk0]; decide
        rw [if_neg hk, if_neg ht] at hb
        simp only [List.nil_append] at hb
        have := ih (loopBody cfg st x).1 prev n b hrest hR h1
          (by rw [hS, hk0]; exact hw2) (hcont _ _ hb)
        rw [this, hS, hk0]
        rfl
    · rw [if_neg hbd] at hb hS
      simp only [List.nil_append] at hb
      have := ih (loopBody cfg st x).1 prev n b hrest hR h1 (by rw [hS]; exact hw)
        (hcont _ _ hb)
      rw [this, hS]

/-- C10 (amended): in a run without reset request that prints at least 41
statistics lines, the 40th statistics line, which is the one printed at the
41st interval boundary, is directly preceded by a title line, and the 39th
and the 41st statistics lines are not. -/
theorem header_cadence (cfg : Config) (inps : List Input)
    (hq : ∀ x ∈ inps, SIGUSR1 ∉ x.signals)
    (h41 : 41 ≤ ((mainOutput cfg inps).filter isStatsLine).length) :
    headerBefore (mainOutput cfg inps) 40 = some true
      ∧ headerBefore (mainOutput cfg inps) 39 = some false
      ∧ headerBefore (mainOutput cfg inps) 41 = some false := by
  have hscan : ∀ n, headerBefore (mainOutput cfg inps) n
      = headerBeforeAux ((mainLoop cfg (initVars cfg) inps).2.1.filter isPrinted) true n := by
    intro n
    simp only [headerBefore, mainOutput, List.filter_cons, isPrinted, if_true]
    rw [headerBeforeAux_title]
  have hlen : 41 ≤ (((mainLoop cfg (initVars cfg) inps).2.1.filter isPrinted).filter
      isStatsLine).length := by
    rw [filter_isStatsLine_printed]
    simpa [mainOutput, List.filter_cons, isStatsLine] using h41
  have key : ∀ n, 2 ≤ n → n ≤ 41 →
      headerBefore (mainOutput cfg inps) n = some (decide (n % 40 = 0)) := by
    intro n h2 hn
    rw [hscan]
    obtain ⟨b, hb⟩ := headerBeforeAux_isSome
      ((mainLoop cfg (initVars cfg) inps).2.1.filter isPrinted) true n (by omega) (by omega)
    have := mainLoop_headerBefore cfg inps (initVars cfg) true n b hq rfl (by omega)
      (by simp only [initVars]; omega) hb
    rw [hb, this, if_neg (by omega)]
    have h3 : max (initVars cfg).SampleNo 1 + n - 1 = n := by
      simp only [initVars]
      omega
    rw [h3]
  exact ⟨key 40 (by omega) (by omega), key 39 (by omega) (by omega),
    key 41 (by omega) (by omega)⟩

set_option maxRecDepth 100000 in
/-- Witness of `header_cadence`: 45 samples of `cadenceCfg` without a
signal, which print 43 statistics lines. -/
theorem header_cadence_witness :
    ((∀ x ∈ List.replicate 45 (inputOfDuration 100), SIGUSR1 ∉ x.signals)
        ∧ 41 ≤ ((mainOutput cadenceCfg (List.replicate 45 (inputOfDuration 100))).filter
            isStatsLine).length)
      ∧ headerBefore (mainOutput cadenceCfg (List.replicate 45 (inputOfDuration 100))) 40
          = some true
      ∧ headerBefore (mainOutput cadenceCfg (List.replicate 45 (inputOfDuration 100))) 39
          = some false
      ∧ headerBefore (mainOutput cadenceCfg (List.replicate 45 (inputOfDuration 100))) 41
          = some false :=
  ⟨⟨by decide, by decide⟩,
    header_cadence cadenceCfg (List.replicate 45 (inputOfDuration 100)) (by decide) (by decide)⟩

set_option maxRecDepth 100000 in
/-- C10 as stated fails: in the run of `cadenceCfg` over 45 samples without
a signal the 41st statistics line is printed directly after the 40th, not
after a title, and it is the 40th statistics line that directly follows a
title. -/
theorem header_cadence_counterexample :
    (∀ x ∈ List.replicate 45 (inputOfDuration 100), SIGUSR1 ∉ x.signals)
      ∧ headerBefore (mainOutput cadenceCfg (List.replicate 45 (inputOfDuration 100))) 41
          = some false
      ∧ headerBefore (mainOutput cadenceCfg (List.replicate 45 (inputOfDuration 100))) 40
          = some true
      ∧ ¬ (headerBefore (mainOutput cadenceCfg (List.replicate 45 (inputOfDuration 100))) 41
            = some true
          ∧ headerBefore (mainOutput cadenceCfg (List.replicate 45 (inputOfDuration 100))) 39
            = some false
          ∧ headerBefore (mainOutput cadenceCfg (List.replicate 45 (inputOfDuration 100))) 40
            = some false) := by
  decide


/-! ### The end timestamp -/

/-- C13 (amended): `TimeStampCounterEnd` performs two counter reads and
returns the timestamp assembled from the first one; the registers delivered
by the second read never reach the returned value.  The statement-by-statement
reading of the function gives the same value, whatever `tscount` held
before. -/
theorem TimeStampCounterEnd_first (r1 r2 : Nat × Nat) :
    TimeStampCounterEnd r1 r2 = assemble64 r1
      ∧ (∀ low0 high0 : Nat, TimeStampCounterEndSteps low0 high0 r1 r2 = TimeStampCounterEnd r1 r2)
      ∧ (∀ r2' : Nat × Nat, TimeStampCounterEnd r1 r2' = TimeStampCounterEnd r1 r2) :=
  ⟨rfl, fun _ _ => rfl, fun _ => rfl⟩

/-- C13 as stated fails: with a first read of 100 and a second read of 130
the function returns 100, not the timestamp 130 of the second read. -/
theorem TimeStampCounterEnd_counterexample :
    TimeStampCounterEnd (100, 0) (130, 0) = 100
      ∧ TimeStampCounterEndSteps 0 0 (100, 0) (130, 0) = 100
      ∧ assemble64 (130, 0) = 130
      ∧ TimeStampCounterEnd (100, 0) (130, 0) ≠ assemble64 (130, 0) := by
  decide

/-! ### The workload -/

theorem dummyopLoop_exit (k n i a : Nat) (h : k ≤ i) : dummyopLoop k n i a = a := by
  cases n with
  | zero => rfl
  | succ n => simp [dummyopLoop, not_lt.mpr h]

/-- The loop of `dummyop` started at index `i` with exactly the `n`
iterations that remain is the fold of the loop body over `i, ..., i+n-1`. -/
theorem dummyopLoop_eq_foldl (k : Nat) (hk : k < 2 ^ 32) (n i a : Nat) (h : i + n = k) :
    dummyopLoop k n i a
      = (List.range' i n).foldl (fun a i => ((a + 3 * i + k) % 2 ^ 32) &&& 0x7f0f0000) a := by
  induction n generalizing i a with
  | zero => rfl
  | succ n ih =>
    have hi : i < k := by omega
    have hmod : (i + 1) % 2 ^ 32 = i + 1 := Nat.mod_eq_of_lt (by omega)
    have hadd : (a + (3 * i + k) % 2 ^ 32) % 2 ^ 32 = (a + 3 * i + k) % 2 ^ 32 := by
      rw [Nat.add_mod_mod, Nat.add_assoc]
    simp only [dummyopLoop, if_pos hi, hmod, hadd, List.range'_succ, List.foldl_cons]
    exact ih (i + 1) _ (by omega)

/-- More fuel than the remaining iterations does not change the result: the
loop has ended when the index reaches the bound. -/
theorem dummyopLoop_more_fuel (k : Nat) (hk : k < 2 ^ 32) (m n i a : Nat) (h : i + n = k) :
    dummyopLoop k (n + m) i a = dummyopLoop k n i a := by
  induction n generalizing i a with
  | zero =>
    rw [dummyopLoop_exit k _ i a (by omega)]
    rfl
  | succ n ih =>
    have hi : i < k := by omega
    have hmod : (i + 1) % 2 ^ 32 = i + 1 := Nat.mod_eq_of_lt (by omega)
    have e : n + 1 + m = (n + m) + 1 := by omega
    rw [e]
    simp only [dummyopLoop, if_pos hi, hmod]
    exact ih (i + 1) _ (by omega)

theorem dummyopLoop_eq_spec (loops startval : Nat) (hl : loops < 2 ^ 32) :
    dummyopLoop loops loops 0 startval = dummyopSpec loops startval := by
  rw [dummyopLoop_eq_foldl loops hl loops 0 startval (by omega), dummyopSpec,
    List.range_eq_range']

theorem dummyopSpec_masked (loops startval : Nat) (h : 1 ≤ loops) :
    ∃ x : Nat, dummyopSpec loops startval = x &&& 0x7f0f0000 := by
  obtain ⟨n, rfl⟩ : ∃ n, loops = n + 1 := ⟨loops - 1, by omega⟩
  simp only [dummyopSpec, List.range_succ, List.foldl_append, List.foldl_cons, List.foldl_nil]
  exact ⟨_, rfl⟩

theorem masked_facts (x : Nat) :
    (x &&& 0x7f0f0000) &&& 0x7f0f0000 = x &&& 0x7f0f0000
      ∧ x &&& 0x7f0f0000 ≤ 0x7f0f0000
      ∧ (x &&& 0x7f0f0000) % 2 ^ 16 = 0 := by
  refine ⟨?_, Nat.and_le_right, ?_⟩
  · rw [Nat.and_assoc, Nat.and_self]
  · rw [← Nat.and_pow_two_sub_one_eq_mod, Nat.and_assoc]
    have : (0x7f0f0000 : Nat) &&& (2 ^ 16 - 1) = 0 := by decide
    rw [this, Nat.and_zero]

/-- C15 (amended): for every 32-bit `loops` and `startval`, `dummyop` is the
conversion to `int` of the iteration of the specification; its loop has
ended after `loops` iterations, whatever further iterations are allowed; for
`loops ≥ 1` the result is a non-negative `int` that has no bit outside
`0x7f0f0000`, is at most `0x7f0f0000` and has its low 16 bits zero; for
`loops = 0` the result is `startval` converted to `int`: `startval` itself
below `2^31`, and in every case the same 32-bit pattern. -/
theorem dummyop_spec (loops startval : Nat) (hl : loops < 2 ^ 32) (hs : startval < 2 ^ 32) :
    dummyop loops startval = toInt32 (dummyopSpec loops startval)
      ∧ (∀ n : Nat, loops ≤ n →
          dummyopLoop loops n 0 startval = dummyopLoop loops loops 0 startval)
      ∧ (1 ≤ loops →
          dummyop loops startval = (dummyopSpec loops startval : Int)
            ∧ 0 ≤ dummyop loops startval
            ∧ dummyopSpec loops startval &&& 0x7f0f0000 = dummyopSpec loops startval
            ∧ dummyopSpec loops startval ≤ 0x7f0f0000
            ∧ dummyopSpec loops startval % 2 ^ 16 = 0)
      ∧ (loops = 0 →
          dummyop loops startval = toInt32 startval
            ∧ (startval < 2 ^ 31 → dummyop loops startval = (startval : Int))
            ∧ dummyop loops startval % 2 ^ 32 = (startval : Int)) := by
  have hd : dummyop loops startval = toInt32 (dummyopSpec loops startval) := by
    rw [dummyop, dummyopLoop_eq_spec loops startval hl]
  refine ⟨hd, ?_, ?_, ?_⟩
  · intro n hn
    obtain ⟨m, rfl⟩ : ∃ m, n = loops + m := ⟨n - loops, by omega⟩
    exact dummyopLoop_more_fuel loops hl m loops 0 startval (by omega)
  · intro h1
    obtain ⟨x, hx⟩ := dummyopSpec_masked loops startval h1
    obtain ⟨m1, m2, m3⟩ := masked_facts x
    rw [← hx] at m1 m2 m3
    have hlt : dummyopSpec loops startval < 2 ^ 31 := lt_of_le_of_lt m2 (by norm_num)
    have hv : dummyop loops startval = (dummyopSpec loops startval : Int) := by
      rw [hd, toInt32, if_pos hlt]
    exact ⟨hv, by rw [hv]; exact Int.natCast_nonneg _, m1, m2, m3⟩
  · intro h0
    subst h0
    have h0' : dummyop 0 startval = toInt32 startval := rfl
    refine ⟨h0', ?_, ?_⟩
    · intro hlt
      rw [h0', toInt32, if_pos hlt]
    · rw [h0', toInt32]
      split_ifs <;> omega

/-- Witness of `dummyop_spec`: two iterations from the start value 7. -/
theorem dummyop_spec_witness :
    ((2 : Nat) < 2 ^ 32 ∧ (7 : Nat) < 2 ^ 32)
      ∧ dummyop 2 7 = toInt32 (dummyopSpec 2 7)
      ∧ (∀ n : Nat, 2 ≤ n → dummyopLoop 2 n 0 7 = dummyopLoop 2 2 0 7)
      ∧ (1 ≤ 2 →
          dummyop 2 7 = (dummyopSpec 2 7 : Int)
            ∧ 0 ≤ dummyop 2 7
            ∧ dummyopSpec 2 7 &&& 0x7f0f0000 = dummyopSpec 2 7
            ∧ dummyopSpec 2 7 ≤ 0x7f0f0000
            ∧ dummyopSpec 2 7 % 2 ^ 16 = 0)
      ∧ (2 = 0 →
          dummyop 2 7 = toInt32 7
            ∧ (7 < 2 ^ 31 → dummyop 2 7 = ((7 : Nat) : Int))
            ∧ dummyop 2 7 % 2 ^ 32 = ((7 : Nat) : Int)) :=
  ⟨⟨by norm_num, by norm_num⟩, dummyop_spec 2 7 (by norm_num) (by norm_num)⟩

/-- C15 as stated fails for `loops = 0`: the start value `0x80000000` comes
back as the `int` `-2147483648`, not as `2147483648`. -/
theorem dummyop_zero_counterexample :
    dummyop 0 0x80000000 = -2147483648
      ∧ dummyop 0 0x80000000 ≠ ((0x80000000 : Nat) : Int) := by
  decide


/-! ### Invariants of the sample loop -/

/-- A property of the variables that every iteration preserves, and a
property of the events that every iteration from such variables emits, hold
along every sequence of iterations. -/
theorem bodies_forall (cfg : Config) (P : Vars → Prop) (Q : Output → Prop)
    (hstep : ∀ st x, P st → P (loopBody cfg st x).1 ∧ ∀ o ∈ (loopBody cfg st x).2, Q o)
    (inps : List Input) (st : Vars) (h : P st) :
    P (bodies cfg st inps).1 ∧ ∀ o ∈ (bodies cfg st inps).2, Q o := by
  induction inps generalizing st with
  | nil => exact ⟨h, by simp [bodies]⟩
  | cons x rest ih =>
    obtain ⟨h1, h2⟩ := hstep st x h
    obtain ⟨h3, h4⟩ := ih (loopBody cfg st x).1 h1
    refine ⟨h3, ?_⟩
    intro o ho
    simp only [bodies, List.mem_append] at ho
    rcases ho with ho | ho
    · exact h2 o ho
    · exact h4 o ho

/-- The same along the `do ... while` loop. -/
theorem mainLoop_forall (cfg : Config) (P : Vars → Prop) (Q : Output → Prop)
    (hstep : ∀ st x, P st → P (loopBody cfg st x).1 ∧ ∀ o ∈ (loopBody cfg st x).2, Q o)
    (inps : List Input) (st : Vars) (h : P st) :
    P (mainLoop cfg st inps).1 ∧ ∀ o ∈ (mainLoop cfg st inps).2.1, Q o := by
  induction inps generalizing st with
  | nil => exact ⟨h, by simp [mainLoop]⟩
  | cons x rest ih =>
    obtain ⟨h1, h2⟩ := hstep st x h
    obtain ⟨h3, h4⟩ := ih (loopBody cfg st x).1 h1
    simp only [mainLoop]
    split_ifs with hc
    · refine ⟨h3, ?_⟩
      intro o ho
      simp only [List.mem_append] at ho
      rcases ho with ho | ho
      · exact h2 o ho
      · exact h4 o ho
    · exact ⟨h1, h2⟩

/-- A statistics line among the events of one iteration is the line of the
boundary, printed with `SampleNo > 0` from the state the iteration reached
the boundary with. -/
theorem loopBody_statsLine_mem (cfg : Config) (st : Vars) (x : Input) (o : Output)
    (ho : o ∈ (loopBody cfg st x).2) (hl : isStatsLine o = true) :
    0 < st.SampleNo ∧ cfg.displayUpdate ≤ st.tref
      ∧ o = statsLineOf (duration x) (endTimeOf x)
          { sampled cfg st x with tref := (st.tref + 1) % 2 ^ 32 } := by
  have hm : o ∈ (loopBody cfg st x).2.filter isStatsLine := List.mem_filter.mpr ⟨ho, hl⟩
  by_cases hb : cfg.displayUpdate ≤ st.tref
  · rw [loopBody_snd_of_ge cfg st x hb] at hm
    split_ifs at hm with hk
    · exact ⟨hk, hb, List.mem_singleton.mp hm⟩
    · simp at hm
  · rw [loopBody_snd_of_lt cfg st x (not_le.mp hb)] at hm
    simp at hm

theorem duration_lt (inp : Input) : duration inp < 2 ^ 64 := by
  simp only [duration, clockdiff]
  split_ifs <;> exact Nat.mod_lt _ (by norm_num)

theorem loopBody_TransientMax_lt (cfg : Config) (st : Vars) (x : Input)
    (h : st.TransientMax < 2 ^ 64) : (loopBody cfg st x).1.TransientMax < 2 ^ 64 := by
  by_cases hb : cfg.displayUpdate ≤ st.tref
  · rw [loopBody_fst_of_ge cfg st x hb]
    by_cases hz : (sampled cfg st x).resetStats = 0
    · have hz' : ({ sampled cfg st x with tref := (st.tref + 1) % 2 ^ 32 } : Vars).resetStats
          = 0 := hz
      rw [intervalBoundary_fst_of_zero cfg _ _ _ hz']
      norm_num
    · have hz' : ({ sampled cfg st x with tref := (st.tref + 1) % 2 ^ 32 } : Vars).resetStats
          ≠ 0 := hz
      rw [intervalBoundary_fst_of_ne cfg _ _ _ hz']
      norm_num
  · rw [loopBody_fst_of_lt cfg st x (not_le.mp hb)]
    simp only [sampled_TransientMax]
    exact max_lt h (duration_lt x)

/-- C14: in every run of the program, every statistics line is printed after
the sample of its own iteration was recorded: its `Inst_Min` column is at
most its `last_Exec` column, which is at most its `Inst_Max` column; the
`Inst_jitter` column is the difference `Inst_Max - Inst_Min` without
wraparound; and the snapshot `Inst_Min = MINVAL`, `Inst_Max = 0` of an
interval without sample is never printed.  The same holds along every
sequence of iterations, whether or not the loop test is applied. -/
theorem line_after_sample (cfg : Config) (inps : List Input) :
    (∀ o ∈ mainOutput cfg inps, ∀ (a b c d e f g : Nat) (h : Option Nat) (i : Nat),
        o = Output.statsLine a b c d e f g h i →
        a ≤ d ∧ d ≤ b ∧ c = b - a ∧ a ≤ b ∧ ¬ (a = MINVAL ∧ b = 0))
      ∧ (∀ o ∈ (bodies cfg (initVars cfg) inps).2,
        ∀ (a b c d e f g : Nat) (h : Option Nat) (i : Nat),
        o = Output.statsLine a b c d e f g h i →
        a ≤ d ∧ d ≤ b ∧ c = b - a ∧ a ≤ b ∧ ¬ (a = MINVAL ∧ b = 0)) := by
  have hstep : ∀ st x, st.TransientMax < 2 ^ 64 →
      (loopBody cfg st x).1.TransientMax < 2 ^ 64
        ∧ ∀ o ∈ (loopBody cfg st x).2, ∀ (a b c d e f g : Nat) (h : Option Nat) (i : Nat),
          o = Output.statsLine a b c d e f g h i →
          a ≤ d ∧ d ≤ b ∧ c = b - a ∧ a ≤ b ∧ ¬ (a = MINVAL ∧ b = 0) := by
    intro st x hT
    refine ⟨loopBody_TransientMax_lt cfg st x hT, ?_⟩
    intro o ho a b c d e f g h i heq
    have hl : isStatsLine o = true := by rw [heq]; rfl
    obtain ⟨-, -, hline⟩ := loopBody_statsLine_mem cfg st x o ho hl
    rw [heq] at hline
    simp only [statsLineOf, Output.statsLine.injEq, sampled_TransientMin,
      sampled_TransientMax] at hline
    obtain ⟨ha, hb, hc, hd, -⟩ := hline
    have hdl := duration_lt x
    have h1 : a ≤ d := by rw [ha, hd]; exact min_le_right _ _
    have h2 : d ≤ b := by rw [hb, hd]; exact le_max_right _ _
    have h3 : b < 2 ^ 64 := by rw [hb]; exact max_lt hT hdl
    have hM : 0 < MINVAL := by norm_num [MINVAL]
    refine ⟨h1, h2, ?_, le_trans h1 h2, ?_⟩
    · rw [hc, ← ha, ← hb]
      omega
    · rintro ⟨e1, e2⟩
      omega
  have h0 : (initVars cfg).TransientMax < 2 ^ 64 := by
    simp only [initVars]
    norm_num
  constructor
  · intro o ho
    simp only [mainOutput, List.mem_cons] at ho
    rcases ho with ho | ho
    · intro a b c d e f g h i heq
      rw [ho] at heq
      cases heq
    · exact (mainLoop_forall cfg _ _ hstep inps (initVars cfg) h0).2 o ho
  · exact (bodies_forall cfg _ _ hstep inps (initVars cfg) h0).2


/-- One iteration keeps the interval range inside the absolute range. -/
theorem loopBody_range (cfg : Config) (st : Vars) (x : Input)
    (h : st.absoluteMin ≤ st.TransientMin ∧ st.TransientMin ≤ MINVAL
      ∧ st.TransientMax ≤ st.absoluteMax) :
    (loopBody cfg st x).1.absoluteMin ≤ (loopBody cfg st x).1.TransientMin
      ∧ (loopBody cfg st x).1.TransientMin ≤ MINVAL
      ∧ (loopBody cfg st x).1.TransientMax ≤ (loopBody cfg st x).1.absoluteMax := by
  obtain ⟨h1, h2, h3⟩ := h
  by_cases hb : cfg.displayUpdate ≤ st.tref
  · rw [loopBody_fst_of_ge cfg st x hb]
    by_cases hz : (sampled cfg st x).resetStats = 0
    · have hz' : ({ sampled cfg st x with tref := (st.tref + 1) % 2 ^ 32 } : Vars).resetStats
          = 0 := hz
      rw [intervalBoundary_fst_of_zero cfg _ _ _ hz']
      simp only [sampled_absoluteMin]
      exact ⟨le_trans (min_le_left _ _) (le_trans h1 h2), le_refl _, Nat.zero_le _⟩
    · have hz' : ({ sampled cfg st x with tref := (st.tref + 1) % 2 ^ 32 } : Vars).resetStats
          ≠ 0 := hz
      rw [intervalBoundary_fst_of_ne cfg _ _ _ hz']
      exact ⟨le_refl _, le_refl _, le_refl _⟩
  · rw [loopBody_fst_of_lt cfg st x (not_le.mp hb)]
    simp only [sampled_absoluteMin, sampled_TransientMin, sampled_TransientMax,
      sampled_absoluteMax]
    exact ⟨min_le_min h1 (le_refl _), le_trans (min_le_left _ _) h2, max_le_max h3 (le_refl _)⟩

/-- C17: after any sequence of loop iterations from the start of the program
(samples, boundaries and resets in any order), with or without the loop
test, and also in the middle of an iteration once its sample is recorded,
`absoluteMin ≤ TransientMin ≤ MINVAL` and `TransientMax ≤ absoluteMax`. -/
theorem absolute_contains_interval (cfg : Config) (inps : List Input) :
    ((bodies cfg (initVars cfg) inps).1.absoluteMin ≤ (bodies cfg (initVars cfg) inps).1.TransientMin
        ∧ (bodies cfg (initVars cfg) inps).1.TransientMin ≤ MINVAL
        ∧ (bodies cfg (initVars cfg) inps).1.TransientMax
            ≤ (bodies cfg (initVars cfg) inps).1.absoluteMax)
      ∧ ((mainLoop cfg (initVars cfg) inps).1.absoluteMin
            ≤ (mainLoop cfg (initVars cfg) inps).1.TransientMin
        ∧ (mainLoop cfg (initVars cfg) inps).1.TransientMin ≤ MINVAL
        ∧ (mainLoop cfg (initVars cfg) inps).1.TransientMax
            ≤ (mainLoop cfg (initVars cfg) inps).1.absoluteMax)
      ∧ ∀ x : Input,
        (sampled cfg (bodies cfg (initVars cfg) inps).1 x).absoluteMin
            ≤ (sampled cfg (bodies cfg (initVars cfg) inps).1 x).TransientMin
          ∧ (sampled cfg (bodies cfg (initVars cfg) inps).1 x).TransientMin ≤ MINVAL
          ∧ (sampled cfg (bodies cfg (initVars cfg) inps).1 x).TransientMax
            ≤ (sampled cfg (bodies cfg (initVars cfg) inps).1 x).absoluteMax := by
  have hstep : ∀ st x,
      (st.absoluteMin ≤ st.TransientMin ∧ st.TransientMin ≤ MINVAL
        ∧ st.TransientMax ≤ st.absoluteMax) →
      ((loopBody cfg st x).1.absoluteMin ≤ (loopBody cfg st x).1.TransientMin
        ∧ (loopBody cfg st x).1.TransientMin ≤ MINVAL
        ∧ (loopBody cfg st x).1.TransientMax ≤ (loopBody cfg st x).1.absoluteMax)
        ∧ ∀ o ∈ (loopBody cfg st x).2, True :=
    fun st x h => ⟨loopBody_range cfg st x h, fun _ _ => trivial⟩
  have h0 : (initVars cfg).absoluteMin ≤ (initVars cfg).TransientMin
      ∧ (initVars cfg).TransientMin ≤ MINVAL
      ∧ (initVars cfg).TransientMax ≤ (initVars cfg).absoluteMax :=
    ⟨le_refl _, le_refl _, le_refl _⟩
  have hb := (bodies_forall cfg _ (fun _ => True) hstep inps (initVars cfg) h0).1
  have hm := (mainLoop_forall cfg _ (fun _ => True) hstep inps (initVars cfg) h0).1
  refine ⟨hb, hm, ?_⟩
  intro x
  obtain ⟨h1, h2, h3⟩ := hb
  simp only [sampled_absoluteMin, sampled_TransientMin, sampled_TransientMax,
    sampled_absoluteMax]
  exact ⟨min_le_min h1 (le_refl _), le_trans (min_le_left _ _) h2, max_le_max h3 (le_refl _)⟩

/-- One iteration keeps `lasttime` assigned whenever `SampleNo > 0`, and
prints an `Interval` column only from an assigned `lasttime`. -/
theorem loopBody_lasttime (cfg : Config) (st : Vars) (x : Input)
    (h : 0 < st.SampleNo → st.lasttime.isSome = true) :
    (0 < (loopBody cfg st x).1.SampleNo → (loopBody cfg st x).1.lasttime.isSome = true)
      ∧ ∀ o ∈ (loopBody cfg st x).2, intervalDefined o = true := by
  constructor
  · by_cases hb : cfg.displayUpdate ≤ st.tref
    · rw [loopBody_fst_of_ge cfg st x hb]
      by_cases hz : (sampled cfg st x).resetStats = 0
      · have hz' : ({ sampled cfg st x with tref := (st.tref + 1) % 2 ^ 32 } : Vars).resetStats
            = 0 := hz
        rw [intervalBoundary_fst_of_zero cfg _ _ _ hz']
        intro _
        rfl
      · have hz' : ({ sampled cfg st x with tref := (st.tref + 1) % 2 ^ 32 } : Vars).resetStats
            ≠ 0 := hz
        rw [intervalBoundary_fst_of_ne cfg _ _ _ hz']
        intro _
        rfl
    · rw [loopBody_fst_of_lt cfg st x (not_le.mp hb)]
      simp only [sampled_SampleNo, sampled_lasttime]
      exact h
  · intro o ho
    by_cases hl : isStatsLine o = true
    · obtain ⟨hk, -, hline⟩ := loopBody_statsLine_mem cfg st x o ho hl
      rw [hline]
      simp only [statsLineOf, intervalDefined, sampled_lasttime, Option.isSome_map']
      exact h hk
    · cases o with
      | statsLine a b c d e f g iv i => exact absurd rfl hl
      | title => rfl
      | kill pid sig => rfl
      | resetNotice => rfl

/-- C19: in every run of the program, with or without resets, every
statistics line is printed with `lasttime` already assigned by an earlier
boundary, so that its `Interval` column is computed from a defined value; in
every reachable state `SampleNo > 0` implies that `lasttime` is assigned. -/
theorem lasttime_defined (cfg : Config) (inps : List Input) :
    (∀ o ∈ mainOutput cfg inps, intervalDefined o = true)
      ∧ (∀ o ∈ (bodies cfg (initVars cfg) inps).2, intervalDefined o = true)
      ∧ (0 < (bodies cfg (initVars cfg) inps).1.SampleNo →
          (bodies cfg (initVars cfg) inps).1.lasttime.isSome = true)
      ∧ (∀ o ∈ mainOutput cfg inps, ∀ (a b c d e f g : Nat) (h : Option Nat) (i : Nat),
          o = Output.statsLine a b c d e f g h i → ∃ v : Nat, h = some v) := by
  have h0 : 0 < (initVars cfg).SampleNo → (initVars cfg).lasttime.isSome = true := by
    intro h
    simp [initVars] at h
  have hm := mainLoop_forall cfg _ _ (loopBody_lasttime cfg) inps (initVars cfg) h0
  have hb := bodies_forall cfg _ _ (loopBody_lasttime cfg) inps (initVars cfg) h0
  have hout : ∀ o ∈ mainOutput cfg inps, intervalDefined o = true := by
    intro o ho
    simp only [mainOutput, List.mem_cons] at ho
    rcases ho with ho | ho
    · rw [ho]
      rfl
    · exact hm.2 o ho
  refine ⟨hout, hb.2, hb.1, ?_⟩
  intro o ho a b c d e f g h i heq
  have := hout o ho
  rw [heq] at this
  simp only [intervalDefined] at this
  exact Option.isSome_iff_exists.mp this

theorem measured_TransientMin (cfg : Config) (st : Vars) (inp : Input) :
    (measured cfg st inp).TransientMin = min st.TransientMin (duration inp) := by
  simp [measured, recordSample_TransientMin, deliver_fst]

/-- C20: the trigger condition of an iteration is evaluated on the state in
which `TransientMin` already includes the current sample, so for every
duration `TransientMin ≤ currentExectime`, the 64-bit subtraction
`currentExectime - TransientMin` equals the true difference, the condition
of line 259 is the one with the true difference, and `kill` is sent only
when the true difference exceeds `jitter_threshold`. -/
theorem trigger_no_wrap (cfg : Config) (st : Vars) (inp : Input) :
    (measured cfg st inp).TransientMin ≤ duration inp
      ∧ (duration inp + 2 ^ 64 - (measured cfg st inp).TransientMin) % 2 ^ 64
          = duration inp - (measured cfg st inp).TransientMin
      ∧ triggerCond cfg (duration inp) (measured cfg st inp)
          = (decide (cfg.perf_pid ≠ -1) && decide ((measured cfg st inp).SampleNo > skip)
              && decide ((measured cfg st inp).signaled = 0)
              && decide (duration inp - (measured cfg st inp).TransientMin
                  > cfg.jitter_threshold))
      ∧ ((loopBody cfg st inp).2.filter isKill ≠ [] →
          cfg.jitter_threshold < duration inp - (measured cfg st inp).TransientMin) := by
  have hle : (measured cfg st inp).TransientMin ≤ duration inp := by
    rw [measured_TransientMin]
    exact min_le_right _ _
  have hd := duration_lt inp
  have hsub : (duration inp + 2 ^ 64 - (measured cfg st inp).TransientMin) % 2 ^ 64
      = duration inp - (measured cfg st inp).TransientMin := by
    omega
  refine ⟨hle, hsub, ?_, ?_⟩
  · simp only [triggerCond, hsub]
  · intro hk
    rw [loopBody_snd_kill] at hk
    split_ifs at hk with hc
    · simp only [Bool.and_eq_true] at hc
      have := (triggerCond_true cfg _ _ hc.2).2.2.2
      rw [hsub] at this
      exact this
    · exact absurd rfl hk

/-! ### The comparison of the maximum updates -/

theorem recordSampleStrict_eq (d : Nat) (st : Vars) :
    recordSampleStrict d st = recordSample d st := by
  have h : ∀ m : Nat, (if d > m then d else m) = (if d ≥ m then d else m) := by
    intro m
    split_ifs <;> omega
  simp only [recordSampleStrict, recordSample, h]

theorem loopBodyStrict_eq (cfg : Config) (st : Vars) (inp : Input) :
    loopBodyStrict cfg st inp = loopBody cfg st inp := by
  simp only [loopBodyStrict, loopBody, sampledStrict, sampled, measuredStrict, measured,
    recordSampleStrict_eq]

/-- C18: the sample recording written with `>` instead of `>=` in the two
maximum updates gives, for every state and every duration, the same
`absoluteMin`, `absoluteMax`, `TransientMin` and `TransientMax` (indeed the
same variables), hence the same loop iteration and, for every run, the same
final variables, the same emitted events and the same termination. -/
theorem strict_max_equivalent (cfg : Config) (st : Vars) (d : Nat) :
    recordSampleStrict d st = recordSample d st
      ∧ ((recordSampleStrict d st).absoluteMin = (recordSample d st).absoluteMin
        ∧ (recordSampleStrict d st).absoluteMax = (recordSample d st).absoluteMax
        ∧ (recordSampleStrict d st).TransientMin = (recordSample d st).TransientMin
        ∧ (recordSampleStrict d st).TransientMax = (recordSample d st).TransientMax)
      ∧ (∀ inp : Input, loopBodyStrict cfg st inp = loopBody cfg st inp)
      ∧ (∀ inps : List Input, mainLoopStrict cfg st inps = mainLoop cfg st inps) := by
  refine ⟨recordSampleStrict_eq d st, ?_, loopBodyStrict_eq cfg st, ?_⟩
  · rw [recordSampleStrict_eq]
    exact ⟨rfl, rfl, rfl, rfl⟩
  · intro inps
    induction inps generalizing st with
    | nil => rfl
    | cons x rest ih =>
      simp only [mainLoopStrict, mainLoop, loopBodyStrict_eq, ih]


/-! ### The line after a reset -/

/-- The statistics after iterations that all lie inside one display
interval, stated with `insideInterval`. -/
theorem bodies_insideInterval (cfg : Config) (pre : List Input) (st : Vars)
    (h : insideInterval cfg st pre = true) :
    (bodies cfg st pre).1.TransientMin = (pre.map duration).foldl min st.TransientMin
      ∧ (bodies cfg st pre).1.TransientMax = (pre.map duration).foldl max st.TransientMax
      ∧ (bodies cfg st pre).1.absoluteMin = (pre.map duration).foldl min st.absoluteMin
      ∧ (bodies cfg st pre).1.absoluteMax = (pre.map duration).foldl max st.absoluteMax
      ∧ (bodies cfg st pre).1.SampleNo = st.SampleNo
      ∧ (bodies cfg st pre).1.lasttime = st.lasttime
      ∧ (bodies cfg st pre).2.filter isStatsLine = [] := by
  induction pre generalizing st with
  | nil => simp [bodies]
  | cons inp rest ih =>
    simp only [insideInterval, Bool.and_eq_true, decide_eq_true_eq] at h
    have hb := loopBody_fst_of_lt cfg st inp h.1
    obtain ⟨i1, i2, i3, i4, i5, i6, i7⟩ := ih (loopBody cfg st inp).1 h.2
    simp only [bodies, List.map_cons, List.foldl_cons, List.filter_append,
      loopBody_snd_of_lt cfg st inp h.1, i7, List.append_nil]
    refine ⟨?_, ?_, ?_, ?_, ?_, ?_, trivial⟩
    · rw [i1, hb]
      simp [sampled_TransientMin]
    · rw [i2, hb]
      simp [sampled_TransientMax]
    · rw [i3, hb]
      simp [sampled_absoluteMin]
    · rw [i4, hb]
      simp [sampled_absoluteMax]
    · rw [i5, hb]
      simp [sampled_SampleNo]
    · rw [i6, hb]
      simp [sampled_lasttime]

theorem foldl_max_lt (l : List Nat) (a B : Nat) (ha : a < B) (hl : ∀ x ∈ l, x < B) :
    l.foldl max a < B := by
  rcases foldl_max_mem l a with h | h
  · rw [h]
    exact ha
  · exact hl _ h

/-- C16: an iteration `b` consumes a pending reset at its boundary; `pre`
are the iterations of the next display interval and `last` is the iteration
that reaches the next boundary.  Every statistics line printed by `b` shows
the absolute values before the reset (the old bounds adjusted with the
sample of `b`), while the variables after `b` hold `MINVAL` and `0`.  The
next statistics line is the one printed by `last`; it carries the number 1,
and its absolute columns equal its interval columns: both are the running
minimum from `MINVAL` and the running maximum from `0` of the durations
recorded since the reset. -/
theorem reset_visible_next_line (cfg : Config) (st : Vars) (b : Input) (pre : List Input)
    (last : Input) (hc : resetConsumed cfg st b = true)
    (hin : insideInterval cfg (loopBody cfg st b).1 pre = true)
    (hb : cfg.displayUpdate ≤ (bodies cfg (loopBody cfg st b).1 pre).1.tref) :
    (∀ o ∈ (loopBody cfg st b).2, ∀ (a1 a2 a3 a4 a5 a6 a7 : Nat) (h : Option Nat) (i : Nat),
        o = Output.statsLine a1 a2 a3 a4 a5 a6 a7 h i →
        a5 = min st.absoluteMin (duration b) ∧ a6 = max st.absoluteMax (duration b))
      ∧ ((loopBody cfg st b).1.absoluteMin = MINVAL ∧ (loopBody cfg st b).1.absoluteMax = 0)
      ∧ ∃ (m M tmp : Nat) (iv : Option Nat),
          m = ((pre ++ [last]).map duration).foldl min MINVAL
            ∧ M = ((pre ++ [last]).map duration).foldl max 0
            ∧ (bodies cfg (loopBody cfg st b).1 (pre ++ [last])).2.filter isStatsLine
                = [Output.statsLine m M (M - m) (duration last) m M tmp iv 1] := by
  have hc' := hc
  simp only [resetConsumed, Bool.and_eq_true, decide_eq_true_eq] at hc'
  have hz' : ({ sampled cfg st b with tref := (st.tref + 1) % 2 ^ 32 } : Vars).resetStats
      ≠ 0 := hc'.2
  have hpost : (loopBody cfg st b).1
      = { ({ sampled cfg st b with tref := (st.tref + 1) % 2 ^ 32 } : Vars) with
          tref := 1
          lasttime := some (endTimeOf b)
          TransientMax := 0
          TransientMin := MINVAL
          absoluteMax := 0
          absoluteMin := MINVAL
          resetStats := 0
          SampleNo := 1
          signaled := if cfg.PROCESSOR_TRACE then 0
            else ({ sampled cfg st b with tref := (st.tref + 1) % 2 ^ 32 } : Vars).signaled } := by
    rw [loopBody_fst_of_ge cfg st b hc'.1, intervalBoundary_fst_of_ne cfg _ _ _ hz']
  have p1 : (loopBody cfg st b).1.absoluteMin = MINVAL := by rw [hpost]
  have p2 : (loopBody cfg st b).1.absoluteMax = 0 := by rw [hpost]
  have p3 : (loopBody cfg st b).1.TransientMin = MINVAL := by rw [hpost]
  have p4 : (loopBody cfg st b).1.TransientMax = 0 := by rw [hpost]
  have p5 : (loopBody cfg st b).1.SampleNo = 1 := by rw [hpost]
  refine ⟨?_, ⟨p1, p2⟩, ?_⟩
  · intro o ho a1 a2 a3 a4 a5 a6 a7 h i heq
    have hl : isStatsLine o = true := by rw [heq]; rfl
    obtain ⟨-, -, hline⟩ := loopBody_statsLine_mem cfg st b o ho hl
    rw [heq] at hline
    simp only [statsLineOf, Output.statsLine.injEq, sampled_absoluteMin,
      sampled_absoluteMax] at hline
    exact ⟨hline.2.2.2.2.1, hline.2.2.2.2.2.1⟩
  · obtain ⟨i1, i2, i3, i4, i5, i6, i7⟩ := bodies_insideInterval cfg pre _ hin
    rw [p3] at i1
    rw [p4] at i2
    rw [p1] at i3
    rw [p2] at i4
    rw [p5] at i5
    have hds : (pre ++ [last]).map duration = pre.map duration ++ [duration last] := by simp
    have hmin : ((pre ++ [last]).map duration).foldl min MINVAL
        = min ((pre.map duration).foldl min MINVAL) (duration last) := by
      rw [hds, List.foldl_append]
      rfl
    have hmax : ((pre ++ [last]).map duration).foldl max 0
        = max ((pre.map duration).foldl max 0) (duration last) := by
      rw [hds, List.foldl_append]
      rfl
    have hlast : duration last ∈ (pre ++ [last]).map duration := by simp
    have hmM : ((pre ++ [last]).map duration).foldl min MINVAL
        ≤ ((pre ++ [last]).map duration).foldl max 0 :=
      le_trans ((foldl_min_le _ _).2 _ hlast) ((le_foldl_max _ _).2 _ hlast)
    have hMlt : ((pre ++ [last]).map duration).foldl max 0 < 2 ^ 64 := by
      apply foldl_max_lt _ _ _ (by norm_num)
      intro x hx
      obtain ⟨y, -, rfl⟩ := List.mem_map.mp hx
      exact duration_lt y
    refine ⟨_, _, (sampled cfg (bodies cfg (loopBody cfg st b).1 pre).1 last).tmp,
      (loopBody cfg st b).1.lasttime.map fun l => (endTimeOf last + 2 ^ 64 - l) % 2 ^ 64,
      rfl, rfl, ?_⟩
    rw [bodies_append, bodies_singleton]
    simp only [List.filter_append, i7, List.nil_append]
    rw [loopBody_snd_of_ge cfg _ last hb, i5, if_pos (by norm_num)]
    have e1 : (sampled cfg (bodies cfg (loopBody cfg st b).1 pre).1 last).TransientMin
        = ((pre ++ [last]).map duration).foldl min MINVAL := by
      rw [sampled_TransientMin, i1, hmin]
    have e2 : (sampled cfg (bodies cfg (loopBody cfg st b).1 pre).1 last).TransientMax
        = ((pre ++ [last]).map duration).foldl max 0 := by
      rw [sampled_TransientMax, i2, hmax]
    have e3 : (sampled cfg (bodies cfg (loopBody cfg st b).1 pre).1 last).absoluteMin
        = ((pre ++ [last]).map duration).foldl min MINVAL := by
      rw [sampled_absoluteMin, i3, hmin]
    have e4 : (sampled cfg (bodies cfg (loopBody cfg st b).1 pre).1 last).absoluteMax
        = ((pre ++ [last]).map duration).foldl max 0 := by
      rw [sampled_absoluteMax, i4, hmax]
    have e5 : (((pre ++ [last]).map duration).foldl max 0 + 2 ^ 64
          - ((pre ++ [last]).map duration).foldl min MINVAL) % 2 ^ 64
        = ((pre ++ [last]).map duration).foldl max 0
          - ((pre ++ [last]).map duration).foldl min MINVAL := by
      omega
    simp only [statsLineOf, e1, e2, e3, e4, e5, sampled_SampleNo, sampled_lasttime, i5, i6]


/-- Witness of `reset_visible_next_line`: the boundary of `demoPending`
consumes the reset, then the durations 30, 40, 60 and 35 fill the next
interval of `demoCfg`. -/
theorem reset_visible_next_line_witness :
    (resetConsumed demoCfg demoPending (inputOfDuration 75) = true
        ∧ insideInterval demoCfg (loopBody demoCfg demoPending (inputOfDuration 75)).1
            [inputOfDuration 30, inputOfDuration 40, inputOfDuration 60] = true
        ∧ demoCfg.displayUpdate
            ≤ (bodies demoCfg (loopBody demoCfg demoPending (inputOfDuration 75)).1
                [inputOfDuration 30, inputOfDuration 40, inputOfDuration 60]).1.tref)
      ∧ (∀ o ∈ (loopBody demoCfg demoPending (inputOfDuration 75)).2,
          ∀ (a1 a2 a3 a4 a5 a6 a7 : Nat) (h : Option Nat) (i : Nat),
          o = Output.statsLine a1 a2 a3 a4 a5 a6 a7 h i →
          a5 = min demoPending.absoluteMin (duration (inputOfDuration 75))
            ∧ a6 = max demoPending.absoluteMax (duration (inputOfDuration 75)))
      ∧ ((loopBody demoCfg demoPending (inputOfDuration 75)).1.absoluteMin = MINVAL
          ∧ (loopBody demoCfg demoPending (inputOfDuration 75)).1.absoluteMax = 0)
      ∧ ∃ (m M tmp : Nat) (iv : Option Nat),
          m = (([inputOfDuration 30, inputOfDuration 40, inputOfDuration 60]
                ++ [inputOfDuration 35]).map duration).foldl min MINVAL
            ∧ M = (([inputOfDuration 30, inputOfDuration 40, inputOfDuration 60]
                ++ [inputOfDuration 35]).map duration).foldl max 0
            ∧ (bodies demoCfg (loopBody demoCfg demoPending (inputOfDuration 75)).1
                ([inputOfDuration 30, inputOfDuration 40, inputOfDuration 60]
                  ++ [inputOfDuration 35])).2.filter isStatsLine
                = [Output.statsLine m M (M - m) (duration (inputOfDuration 35)) m M tmp iv 1] :=
  ⟨⟨by decide, by decide, by decide⟩,
    reset_visible_next_line demoCfg demoPending (inputOfDuration 75)
      [inputOfDuration 30, inputOfDuration 40, inputOfDuration 60] (inputOfDuration 35)
      (by decide) (by decide) (by decide)⟩

/-- The scenario of C16 evaluated on `demoCfg`: the line of the boundary that
consumes the reset still shows the absolute values 50 and 200, the next line
shows 30 and 60 in the interval and in the absolute columns. -/
theorem reset_visible_example :
    (bodies demoCfg demoPending
        [inputOfDuration 75, inputOfDuration 30, inputOfDuration 40, inputOfDuration 60,
          inputOfDuration 35]).2
      = [Output.statsLine 75 75 0 75 50 200 0 (some 75) 1,
          Output.statsLine 30 60 30 35 30 60 0 (some (2 ^ 64 - 40)) 1] := by
  decide

/-! ### The length of the display intervals -/

theorem boundaryFlags_append (cfg : Config) (xs ys : List Input) (st : Vars) :
    boundaryFlags cfg st (xs ++ ys)
      = boundaryFlags cfg st xs ++ boundaryFlags cfg (bodies cfg st xs).1 ys := by
  induction xs generalizing st with
  | nil => simp [boundaryFlags, bodies]
  | cons x rest ih => simp [boundaryFlags, bodies, ih]

/-- From `tref ≤ displayUpdate` the boundary is reached by the iteration
number `displayUpdate - tref + 1` and by none before it; it leaves
`tref = 1`. -/
theorem boundaryFlags_interval (cfg : Config) (hD : cfg.displayUpdate < 2 ^ 32)
    (inps : List Input) (st : Vars) (ht : st.tref ≤ cfg.displayUpdate)
    (hlen : inps.length = cfg.displayUpdate - st.tref + 1) :
    boundaryFlags cfg st inps = List.replicate (cfg.displayUpdate - st.tref) false ++ [true]
      ∧ (bodies cfg st inps).1.tref = 1 := by
  induction inps generalizing st with
  | nil => simp at hlen
  | cons x rest ih =>
    simp only [List.length_cons] at hlen
    by_cases hb : cfg.displayUpdate ≤ st.tref
    · have h0 : cfg.displayUpdate - st.tref = 0 := by omega
      have hr : rest = [] := List.length_eq_zero.mp (by omega)
      subst hr
      have htref : (loopBody cfg st x).1.tref = 1 := by
        rw [loopBody_fst_of_ge cfg st x hb]
        by_cases hz : (sampled cfg st x).resetStats = 0
        · have hz' : ({ sampled cfg st x with tref := (st.tref + 1) % 2 ^ 32 } : Vars).resetStats
              = 0 := hz
          rw [intervalBoundary_fst_of_zero cfg _ _ _ hz']
        · have hz' : ({ sampled cfg st x with tref := (st.tref + 1) % 2 ^ 32 } : Vars).resetStats
              ≠ 0 := hz
          rw [intervalBoundary_fst_of_ne cfg _ _ _ hz']
      simp [boundaryFlags, bodies, hb, h0, htref]
    · have hlt : st.tref < cfg.displayUpdate := not_le.mp hb
      have htref : (loopBody cfg st x).1.tref = st.tref + 1 := by
        rw [loopBody_fst_of_lt cfg st x hlt]
        exact Nat.mod_eq_of_lt (by omega)
      obtain ⟨h1, h2⟩ := ih (loopBody cfg st x).1 (by omega) (by omega)
      have e : cfg.displayUpdate - st.tref = (cfg.displayUpdate - (st.tref + 1)) + 1 := by omega
      rw [htref] at h1
      simp only [boundaryFlags, bodies, h1, h2, e, List.replicate_succ, hb, decide_False,
        List.cons_append, and_self]

/-- The lengths of the first two display intervals of every run, for a
display interval `D ≥ 1`: the first boundary is reached by sample `D + 1`,
the second one `D` samples later. -/
theorem first_interval_longer (cfg : Config) (xs ys : List Input)
    (h1 : 1 ≤ cfg.displayUpdate) (hD : cfg.displayUpdate < 2 ^ 32)
    (hx : xs.length = cfg.displayUpdate + 1) (hy : ys.length = cfg.displayUpdate) :
    boundaryFlags cfg (initVars cfg) (xs ++ ys)
      = (List.replicate cfg.displayUpdate false ++ [true])
        ++ (List.replicate (cfg.displayUpdate - 1) false ++ [true]) := by
  have hx' : xs.length = cfg.displayUpdate - (initVars cfg).tref + 1 := by
    simp only [initVars]
    omega
  obtain ⟨f1, t1⟩ := boundaryFlags_interval cfg hD xs (initVars cfg)
    (by simp only [initVars]; omega) hx'
  obtain ⟨f2, -⟩ := boundaryFlags_interval cfg hD ys (bodies cfg (initVars cfg) xs).1
    (by rw [t1]; exact h1) (by rw [t1]; omega)
  rw [boundaryFlags_append, f1, f2, t1]
  simp only [initVars, Nat.sub_zero]

/-- Witness of `first_interval_longer`: the first nine samples of a run of
`demoCfg`. -/
theorem first_interval_longer_witness :
    (1 ≤ demoCfg.displayUpdate ∧ demoCfg.displayUpdate < 2 ^ 32
        ∧ (List.replicate 5 (inputOfDuration 100)).length = demoCfg.displayUpdate + 1
        ∧ (List.replicate 4 (inputOfDuration 100)).length = demoCfg.displayUpdate)
      ∧ boundaryFlags demoCfg (initVars demoCfg)
          (List.replicate 5 (inputOfDuration 100) ++ List.replicate 4 (inputOfDuration 100))
        = (List.replicate demoCfg.displayUpdate false ++ [true])
          ++ (List.replicate (demoCfg.displayUpdate - 1) false ++ [true]) :=
  ⟨⟨by decide, by decide, by decide, by decide⟩,
    first_interval_longer demoCfg (List.replicate 5 (inputOfDuration 100))
      (List.replicate 4 (inputOfDuration 100)) (by decide) (by decide) (by decide) (by decide)⟩

/-- C12 at a failing input: a run of `demoCfg` (display interval `D = 4`)
from the start of the program reaches its first boundary with the fifth
sample, so the first display interval holds `D + 1 = 5` recorded samples;
the following intervals hold 4. -/
theorem first_interval_example :
    boundaryFlags demoCfg (initVars demoCfg) (List.replicate 13 (inputOfDuration 100))
      = [false, false, false, false, true, false, false, false, true,
          false, false, false, true]
      ∧ (bodies demoCfg (initVars demoCfg) (List.replicate 4 (inputOfDuration 100))).1.lasttime
          = none
      ∧ (bodies demoCfg (initVars demoCfg) (List.replicate 5 (inputOfDuration 100))).1.lasttime
          = some 100 := by
  decide


/-! ### Termination of the sample loop -/

theorem lineNumbers_append (xs ys : List Output) :
    lineNumbers (xs ++ ys) = lineNumbers xs ++ lineNumbers ys := by
  simp [lineNumbers]

theorem loopBody_lineNumbers (cfg : Config) (st : Vars) (x : Input) :
    lineNumbers (loopBody cfg st x).2
      = if cfg.displayUpdate ≤ st.tref ∧ 0 < st.SampleNo then [st.SampleNo] else [] := by
  simp only [lineNumbers]
  by_cases hb : cfg.displayUpdate ≤ st.tref
  · rw [loopBody_snd_of_ge cfg st x hb]
    by_cases hk : 0 < st.SampleNo
    · simp [hb, hk, statsLineOf, sampleNoOf, sampled_SampleNo]
    · simp [hb, hk]
  · rw [loopBody_snd_of_lt cfg st x (not_le.mp hb)]
    simp [hb]

/-- A run without reset request from a state with `SampleNo ≤ iterations`:
with at least `samplesUntilExit` inputs the loop test ends the loop after
exactly that many iterations, with `SampleNo = iterations + 1`, after
`iterations + 1 - SampleNo` boundaries, having printed the lines numbered
from `max SampleNo 1` to `iterations`; with fewer inputs the loop is still
running when they are used up. -/
theorem mainLoop_quiet_run (cfg : Config) (hi : cfg.iterations + 1 < 2 ^ 32)
    (hD : cfg.displayUpdate < 2 ^ 32) (inps : List Input) (st : Vars)
    (hq : ∀ x ∈ inps, SIGUSR1 ∉ x.signals) (h0 : st.resetStats = 0)
    (hk : st.SampleNo ≤ cfg.iterations) :
    (samplesUntilExit cfg st ≤ inps.length →
        (mainLoop cfg st inps).2.2 = true
          ∧ (mainLoop cfg st inps).1.SampleNo = cfg.iterations + 1
          ∧ mainLoopCount cfg st inps
              = (samplesUntilExit cfg st, cfg.iterations + 1 - st.SampleNo)
          ∧ lineNumbers (mainLoop cfg st inps).2.1
              = List.range' (max st.SampleNo 1) (cfg.iterations + 1 - max st.SampleNo 1))
      ∧ (inps.length < samplesUntilExit cfg st → (mainLoop cfg st inps).2.2 = false) := by
  induction inps generalizing st with
  | nil =>
    constructor
    · intro h
      simp only [samplesUntilExit, List.length_nil] at h
      omega
    · intro _
      rfl
  | cons x rest ih =>
    have hx : SIGUSR1 ∉ x.signals := hq x (List.mem_cons_self _ _)
    have hrest : ∀ y ∈ rest, SIGUSR1 ∉ y.signals := fun y hy => hq y (List.mem_cons_of_mem _ hy)
    obtain ⟨hS, hR⟩ := loopBody_SampleNo_quiet cfg st x hx h0
    have hL := loopBody_lineNumbers cfg st x
    by_cases hb : cfg.displayUpdate ≤ st.tref
    · rw [if_pos hb, Nat.mod_eq_of_lt (by omega)] at hS
      have htref : (loopBody cfg st x).1.tref = 1 := by
        have hz : (sampled cfg st x).resetStats = 0 := by
          rw [sampled_resetStats, if_neg hx, h0]
        have hz' : ({ sampled cfg st x with tref := (st.tref + 1) % 2 ^ 32 } : Vars).resetStats
            = 0 := hz
        rw [loopBody_fst_of_ge cfg st x hb, intervalBoundary_fst_of_zero cfg _ _ _ hz']
      have hsub : cfg.displayUpdate - st.tref = 0 := by omega
      by_cases hc : st.SampleNo + 1 ≤ cfg.iterations
      · have hcont : (loopBody cfg st x).1.SampleNo ≤ cfg.iterations := by rw [hS]; exact hc
        obtain ⟨ihA, ihB⟩ := ih (loopBody cfg st x).1 hrest hR hcont
        have hmul : (cfg.iterations - st.SampleNo) * max cfg.displayUpdate 1
            = (cfg.iterations - (st.SampleNo + 1)) * max cfg.displayUpdate 1
              + max cfg.displayUpdate 1 := by
          have e : cfg.iterations - st.SampleNo = (cfg.iterations - (st.SampleNo + 1)) + 1 := by
            omega
          rw [e, Nat.add_mul, Nat.one_mul]
        have hmax : cfg.displayUpdate - 1 + 1 = max cfg.displayUpdate 1 := by omega
        have hrem : samplesUntilExit cfg st
            = samplesUntilExit cfg (loopBody cfg st x).1 + 1 := by
          simp only [samplesUntilExit, htref, hS, hsub, hmul]
          omega
        simp only [mainLoop, mainLoopCount, if_pos hcont, if_pos hb, List.length_cons,
          lineNumbers_append, hL]
        constructor
        · intro hlen
          obtain ⟨a1, a2, a3, a4⟩ := ihA (by omega)
          refine ⟨a1, a2, ?_, ?_⟩
          · rw [a3, hrem, hS]
            congr 1
            omega
          · rw [a4, hS]
            by_cases hk0 : 0 < st.SampleNo
            · have e1 : max st.SampleNo 1 = st.SampleNo := max_eq_left hk0
              have e2 : max (st.SampleNo + 1) 1 = st.SampleNo + 1 := max_eq_left (by omega)
              have e3 : cfg.iterations + 1 - st.SampleNo
                  = (cfg.iterations + 1 - (st.SampleNo + 1)) + 1 := by omega
              rw [if_pos ⟨hb, hk0⟩, e1, e2, e3, List.range'_succ]
              rfl
            · have e0 : st.SampleNo = 0 := by omega
              rw [if_neg (fun h => hk0 h.2), e0]
              rfl
        · intro hlen
          exact ihB (by omega)
      · have hstop : ¬ (loopBody cfg st x).1.SampleNo ≤ cfg.iterations := by rw [hS]; exact hc
        have hke : st.SampleNo = cfg.iterations := by omega
        have hrem : samplesUntilExit cfg st = 1 := by
          simp only [samplesUntilExit, hsub, hke, Nat.sub_self, Nat.zero_mul]
        simp only [mainLoop, mainLoopCount, if_neg hstop, if_pos hb, List.length_cons, hL]
        constructor
        · intro _
          refine ⟨trivial, hS.trans (by rw [hke]), ?_, ?_⟩
          · rw [hrem, hke]
            congr 1
            omega
          · by_cases hk0 : 0 < st.SampleNo
            · have e1 : max st.SampleNo 1 = st.SampleNo := max_eq_left hk0
              have e3 : cfg.iterations + 1 - st.SampleNo = 1 := by omega
              rw [if_pos ⟨hb, hk0⟩, e1, e3]
              rfl
            · have e0 : st.SampleNo = 0 := by omega
              have e3 : cfg.iterations + 1 - max st.SampleNo 1 = 0 := by
                rw [e0]
                omega
              rw [if_neg (fun h => hk0 h.2), e3]
              rfl
        · intro hlen
          rw [hrem] at hlen
          omega
    · rw [if_neg hb] at hS
      have hlt : st.tref < cfg.displayUpdate := not_le.mp hb
      have htref : (loopBody cfg st x).1.tref = st.tref + 1 := by
        rw [loopBody_fst_of_lt cfg st x hlt]
        exact Nat.mod_eq_of_lt (by omega)
      have hcont : (loopBody cfg st x).1.SampleNo ≤ cfg.iterations := by rw [hS]; exact hk
      obtain ⟨ihA, ihB⟩ := ih (loopBody cfg st x).1 hrest hR hcont
      have hrem : samplesUntilExit cfg st
          = samplesUntilExit cfg (loopBody cfg st x).1 + 1 := by
        simp only [samplesUntilExit, htref, hS]
        omega
      simp only [mainLoop, mainLoopCount, if_pos hcont, if_neg hb, List.length_cons,
        lineNumbers_append, hL, Nat.add_zero]
      constructor
      · intro hlen
        obtain ⟨a1, a2, a3, a4⟩ := ihA (by omega)
        refine ⟨a1, a2, ?_, ?_⟩
        · rw [a3, hrem, hS]
        · rw [a4, hS, if_neg (fun h => hb h.1)]
          rfl
      · intro hlen
        exact ihB (by omega)


/-- C11: for `iterations < 2^32 - 1` and every `unsigned int` value of
`displayUpdate`, a run without reset request that is given enough samples
(`displayUpdate + 1` for the first interval and `max displayUpdate 1` for
each further one) terminates: the loop test fails with
`SampleNo = iterations + 1`, after exactly that number of samples and
exactly `iterations + 1` boundaries, and the statistics lines printed carry
the numbers `1, 2, ..., iterations` in this order (`iterations` lines, none
for the first boundary); with fewer samples the loop test has not failed
yet. -/
theorem run_terminates (cfg : Config) (inps : List Input)
    (hi : cfg.iterations < 2 ^ 32 - 1) (hD : cfg.displayUpdate < 2 ^ 32)
    (hq : ∀ x ∈ inps, SIGUSR1 ∉ x.signals)
    (hlen : cfg.displayUpdate + 1 + cfg.iterations * max cfg.displayUpdate 1 ≤ inps.length) :
    (mainLoop cfg (initVars cfg) inps).2.2 = true
      ∧ (mainLoop cfg (initVars cfg) inps).1.SampleNo = cfg.iterations + 1
      ∧ mainLoopCount cfg (initVars cfg) inps
          = (cfg.displayUpdate + 1 + cfg.iterations * max cfg.displayUpdate 1,
              cfg.iterations + 1)
      ∧ lineNumbers (mainLoop cfg (initVars cfg) inps).2.1 = List.range' 1 cfg.iterations
      ∧ (lineNumbers (mainLoop cfg (initVars cfg) inps).2.1).length = cfg.iterations
      ∧ (∀ fewer : List Input, (∀ x ∈ fewer, SIGUSR1 ∉ x.signals) →
          fewer.length < cfg.displayUpdate + 1 + cfg.iterations * max cfg.displayUpdate 1 →
          (mainLoop cfg (initVars cfg) fewer).2.2 = false) := by
  have hrem : samplesUntilExit cfg (initVars cfg)
      = cfg.displayUpdate + 1 + cfg.iterations * max cfg.displayUpdate 1 := by
    simp only [samplesUntilExit, initVars, Nat.sub_zero]
  have hk : (initVars cfg).SampleNo ≤ cfg.iterations := by
    simp only [initVars]
    exact Nat.zero_le _
  obtain ⟨hA, -⟩ := mainLoop_quiet_run cfg (by omega) hD inps (initVars cfg) hq rfl hk
  obtain ⟨a1, a2, a3, a4⟩ := hA (by rw [hrem]; exact hlen)
  have hmax : max (initVars cfg).SampleNo 1 = 1 := by
    simp only [initVars]
    rfl
  rw [hmax] at a4
  have a4' : lineNumbers (mainLoop cfg (initVars cfg) inps).2.1 = List.range' 1 cfg.iterations := by
    rw [a4]
    congr 1
  refine ⟨a1, a2, ?_, a4', ?_, ?_⟩
  · rw [a3, hrem]
    simp only [initVars, Nat.sub_zero]
  · rw [a4', List.length_range']
  · intro fewer hqf hlf
    exact (mainLoop_quiet_run cfg (by omega) hD fewer (initVars cfg) hqf rfl hk).2
      (by rw [hrem]; exact hlf)

/-- Witness of `run_terminates`: a run of `shortCfg` (three lines, display
interval of two samples) over ten samples. -/
theorem run_terminates_witness :
    (shortCfg.iterations < 2 ^ 32 - 1 ∧ shortCfg.displayUpdate < 2 ^ 32
        ∧ (∀ x ∈ List.replicate 10 (inputOfDuration 100), SIGUSR1 ∉ x.signals)
        ∧ shortCfg.displayUpdate + 1 + shortCfg.iterations * max shortCfg.displayUpdate 1
            ≤ (List.replicate 10 (inputOfDuration 100)).length)
      ∧ (mainLoop shortCfg (initVars shortCfg) (List.replicate 10 (inputOfDuration 100))).2.2
          = true
      ∧ (mainLoop shortCfg (initVars shortCfg)
          (List.replicate 10 (inputOfDuration 100))).1.SampleNo = shortCfg.iterations + 1
      ∧ mainLoopCount shortCfg (initVars shortCfg) (List.replicate 10 (inputOfDuration 100))
          = (shortCfg.displayUpdate + 1 + shortCfg.iterations * max shortCfg.displayUpdate 1,
              shortCfg.iterations + 1)
      ∧ lineNumbers (mainLoop shortCfg (initVars shortCfg)
          (List.replicate 10 (inputOfDuration 100))).2.1 = List.range' 1 shortCfg.iterations
      ∧ (lineNumbers (mainLoop shortCfg (initVars shortCfg)
          (List.replicate 10 (inputOfDuration 100))).2.1).length = shortCfg.iterations
      ∧ (∀ fewer : List Input, (∀ x ∈ fewer, SIGUSR1 ∉ x.signals) →
          fewer.length
            < shortCfg.displayUpdate + 1 + shortCfg.iterations * max shortCfg.displayUpdate 1 →
          (mainLoop shortCfg (initVars shortCfg) fewer).2.2 = false) :=
  ⟨⟨by decide, by decide, by decide, by decide⟩,
    run_terminates shortCfg (List.replicate 10 (inputOfDuration 100)) (by decide) (by decide)
      (by decide) (by decide)⟩

/-- The run of `shortCfg` evaluated: nine samples are executed, four of them
reach the boundary, the lines 1, 2, 3 are printed and the loop test fails;
after eight samples the loop is still running. -/
theorem run_terminates_example :
    mainLoopCount shortCfg (initVars shortCfg) (List.replicate 10 (inputOfDuration 100)) = (9, 4)
      ∧ lineNumbers (mainLoop shortCfg (initVars shortCfg)
          (List.replicate 10 (inputOfDuration 100))).2.1 = [1, 2, 3]
      ∧ (mainLoop shortCfg (initVars shortCfg) (List.replicate 10 (inputOfDuration 100))).2.2
          = true
      ∧ (mainLoop shortCfg (initVars shortCfg) (List.replicate 8 (inputOfDuration 100))).2.2
          = false := by
  decide


end Jitter
